import Mathlib

/-!
Verification development for the shartnoma document-submission service.

The service verifies Telegram WebApp init-data tokens with a two-stage
HMAC-SHA256 signature and manages a single-submission-per-identity workflow
over an external record store and blob store.  This file gives a shallow
embedding of the source routines (the token verifier
validateTelegramInitData, and the GET/POST/PUT route handlers) and proves
properties about them.  Machine integers are modelled as Nat with explicit
reduction mod 2^32 / 2^8 where the source works with 32-bit words and bytes.
External collaborators (the record store and the blob store) are modelled
explicitly: the table is a list of rows, and fallible external calls take
their outcome from an explicit context value.
-/

set_option maxRecDepth 100000

namespace Shartnoma

/-! ### SHA-256 over byte lists (model of Node crypto SHA-256, FIPS 180-4) -/

/-- Addition of 32-bit words. -/
def add32 (a b : Nat) : Nat := (a + b) % 4294967296

/-- Rotate a 32-bit word right by k bit positions. -/
def rotr32 (k x : Nat) : Nat := ((x >>> k) ||| (x <<< (32 - k))) % 4294967296

/-- SHA-256 big sigma 0. -/
def bsig0 (x : Nat) : Nat := rotr32 2 x ^^^ rotr32 13 x ^^^ rotr32 22 x

/-- SHA-256 big sigma 1. -/
def bsig1 (x : Nat) : Nat := rotr32 6 x ^^^ rotr32 11 x ^^^ rotr32 25 x

/-- SHA-256 small sigma 0. -/
def ssig0 (x : Nat) : Nat := rotr32 7 x ^^^ rotr32 18 x ^^^ (x >>> 3)

/-- SHA-256 small sigma 1. -/
def ssig1 (x : Nat) : Nat := rotr32 17 x ^^^ rotr32 19 x ^^^ (x >>> 10)

/-- SHA-256 choice function. -/
def chf (e f g : Nat) : Nat := (e &&& f) ^^^ ((e ^^^ 4294967295) &&& g)

/-- SHA-256 majority function. -/
def majf (a b c : Nat) : Nat := (a &&& b) ^^^ (a &&& c) ^^^ (b &&& c)

/-- The eight-word SHA-256 working state. -/
structure Hash8 where
  a : Nat
  b : Nat
  c : Nat
  d : Nat
  e : Nat
  f : Nat
  g : Nat
  h : Nat
deriving DecidableEq

/-- SHA-256 round constants. -/
def shaK : List Nat :=
  [1116352408, 1899447441, 3049323471, 3921009573,
   961987163, 1508970993, 2453635748, 2870763221,
   3624381080, 310598401, 607225278, 1426881987,
   1925078388, 2162078206, 2614888103, 3248222580,
   3835390401, 4022224774, 264347078, 604807628,
   770255983, 1249150122, 1555081692, 1996064986,
   2554220882, 2821834349, 2952996808, 3210313671,
   3336571891, 3584528711, 113926993, 338241895,
   666307205, 773529912, 1294757372, 1396182291,
   1695183700, 1986661051, 2177026350, 2456956037,
   2730485921, 2820302411, 3259730800, 3345764771,
   3516065817, 3600352804, 4094571909, 275423344,
   430227734, 506948616, 659060556, 883997877,
   958139571, 1322822218, 1537002063, 1747873779,
   1955562222, 2024104815, 2227730452, 2361852424,
   2428436474, 2756734187, 3204031479, 3329325298]

/-- SHA-256 initial hash value. -/
def initH : Hash8 :=
  ⟨1779033703, 3144134277, 1013904242, 2773480762, 1359893119, 2600822924, 528734635, 1541459225⟩

/-- One SHA-256 compression round; the pair carries the round constant and
the scheduled message word. -/
def shaStep (st : Hash8) (kw : Nat × Nat) : Hash8 :=
  let t1 := add32 st.h (add32 (bsig1 st.e) (add32 (chf st.e st.f st.g) (add32 kw.1 kw.2)))
  let t2 := add32 (bsig0 st.a) (majf st.a st.b st.c)
  ⟨add32 t1 t2, st.a, st.b, st.c, add32 st.d t1, st.e, st.f, st.g⟩

/-- Big-endian 32-bit words from a byte list. -/
def bytesToWords : List Nat → List Nat
  | a :: b :: c :: d :: rest => (a * 16777216 + b * 65536 + c * 256 + d) :: bytesToWords rest
  | _ => []

/-- One step of the message-schedule extension. -/
def extendStep (w : List Nat) : List Nat :=
  w ++ [add32 (add32 (ssig1 (w.getD (w.length - 2) 0)) (w.getD (w.length - 7) 0))
          (add32 (ssig0 (w.getD (w.length - 15) 0)) (w.getD (w.length - 16) 0))]

/-- Iterate the message-schedule extension. -/
def extendN : Nat → List Nat → List Nat
  | 0, w => w
  | n + 1, w => extendN n (extendStep w)

/-- The 64-word message schedule of one 64-byte block. -/
def schedule (block : List Nat) : List Nat := extendN 48 (bytesToWords block)

/-- Compress one 64-byte block into the working state. -/
def compress (st : Hash8) (block : List Nat) : Hash8 :=
  let z := (shaK.zip (schedule block)).foldl shaStep st
  ⟨add32 st.a z.a, add32 st.b z.b, add32 st.c z.c, add32 st.d z.d,
   add32 st.e z.e, add32 st.f z.f, add32 st.g z.g, add32 st.h z.h⟩

/-- Split a byte list into 64-byte chunks (first argument is fuel). -/
def chunks64 : Nat → List Nat → List (List Nat)
  | 0, _ => []
  | _ + 1, [] => []
  | n + 1, l => l.take 64 :: chunks64 n (l.drop 64)

/-- The eight bytes of a 64-bit big-endian length field. -/
def lenBytes (n : Nat) : List Nat :=
  [(n >>> 56) % 256, (n >>> 48) % 256, (n >>> 40) % 256, (n >>> 32) % 256,
   (n >>> 24) % 256, (n >>> 16) % 256, (n >>> 8) % 256, n % 256]

/-- SHA-256 message padding. -/
def padMsg (m : List Nat) : List Nat :=
  m ++ [128] ++ List.replicate ((64 - (m.length + 9) % 64) % 64) 0 ++ lenBytes (8 * m.length)

/-- The four big-endian bytes of a 32-bit word. -/
def wordBytes (w : Nat) : List Nat :=
  [(w >>> 24) % 256, (w >>> 16) % 256, (w >>> 8) % 256, w % 256]

/-- The 32-byte digest from the final working state. -/
def hashBytes (st : Hash8) : List Nat :=
  wordBytes st.a ++ wordBytes st.b ++ wordBytes st.c ++ wordBytes st.d ++
  wordBytes st.e ++ wordBytes st.f ++ wordBytes st.g ++ wordBytes st.h

/-- SHA-256 of a byte list. -/
def sha256 (m : List Nat) : List Nat :=
  let p := padMsg m
  hashBytes ((chunks64 p.length p).foldl compress initH)

/-- HMAC-SHA256 (RFC 2104), as implemented by Node crypto createHmac. -/
def hmacSha256 (key msg : List Nat) : List Nat :=
  let k0 := if 64 < key.length then sha256 key else key
  let kp := k0 ++ List.replicate (64 - k0.length) 0
  sha256 ((kp.map (fun b => b ^^^ 92)) ++ sha256 ((kp.map (fun b => b ^^^ 54)) ++ msg))

/-! ### UTF-8 encoding and lowercase hex -/

/-- UTF-8 bytes of one character. -/
def utf8Char (c : Char) : List Nat :=
  let v := c.toNat
  if v < 128 then [v]
  else if v < 2048 then [192 + v / 64, 128 + v % 64]
  else if v < 65536 then [224 + v / 4096, 128 + v / 64 % 64, 128 + v % 64]
  else [240 + v / 262144, 128 + v / 4096 % 64, 128 + v / 64 % 64, 128 + v % 64]

/-- UTF-8 bytes of a string (Node encodes string inputs to createHmac and
update as UTF-8). -/
def utf8Str (s : String) : List Nat := s.data.flatMap utf8Char

/-- Lowercase hexadecimal digit. -/
def hexDigitChar (n : Nat) : Char := Char.ofNat (if n < 10 then 48 + n else 87 + n)

/-- The two lowercase hex characters of a byte. -/
def byteHexChars (b : Nat) : List Char := [hexDigitChar (b / 16), hexDigitChar (b % 16)]

/-- Lowercase hex encoding of a byte list (Buffer digest "hex"). -/
def bytesToHex (bs : List Nat) : String := String.mk (bs.flatMap byteHexChars)

-- FIPS 180-4 / RFC 6234 test vector, pinning down the SHA-256 model.
example :
    bytesToHex (sha256 (utf8Str "abc")) =
      "ba7816bf8f01cfea414140de5dae2223b00361a396177a9cb410ff61f20015ad" := by
  decide

-- RFC 4231-style HMAC-SHA256 test vector, pinning down the HMAC model.
example :
    bytesToHex (hmacSha256 (utf8Str "key") (utf8Str "The quick brown fox jumps over the lazy dog")) =
      "f7bc83f430538424b13298e6aa6fb143ef4d59a14946175997479dbc2d1a3cd8" := by
  decide

/-! ### UTF-16 code units (JS strings are sequences of UTF-16 code units) -/

/-- The UTF-16 code units of one character (astral characters become a
surrogate pair). -/
def charUnits (c : Char) : List Nat :=
  let v := c.toNat
  if v < 65536 then [v]
  else [55296 + (v - 65536) / 1024, 56320 + (v - 65536) % 1024]

/-- The UTF-16 code units of a string. -/
def strUnits (s : String) : List Nat := s.data.flatMap charUnits

/-- Decode UTF-16 code units back to characters; unpaired surrogates become
U+FFFD (Lean characters are scalar values, JS strings may hold lone
surrogates, which never influence the outcomes modelled here).  The fuel
argument makes the recursion structural; it is instantiated with the list
length, which the consumption of at least one unit per step never
exhausts. -/
def u16DecodeGo : Nat → List Nat → List Char
  | 0, _ => []
  | _ + 1, [] => []
  | fuel + 1, u :: r =>
    if 55296 ≤ u ∧ u ≤ 56319 then
      match r with
      | u2 :: r2 =>
        if 56320 ≤ u2 ∧ u2 ≤ 57343 then
          Char.ofNat (65536 + (u - 55296) * 1024 + (u2 - 56320)) :: u16DecodeGo fuel r2
        else Char.ofNat 65533 :: u16DecodeGo fuel (u2 :: r2)
      | [] => [Char.ofNat 65533]
    else if 56320 ≤ u ∧ u ≤ 57343 then Char.ofNat 65533 :: u16DecodeGo fuel r
    else Char.ofNat u :: u16DecodeGo fuel r

/-- Decode UTF-16 code units to characters. -/
def u16Decode (l : List Nat) : List Char := u16DecodeGo l.length l

/-! ### Hex digits, Node Buffer.from(s, "hex"), timing-safe comparison -/

/-- Hex digit value of a character (both cases), none for non-hex. -/
def hexVal? (c : Char) : Option Nat :=
  if 48 ≤ c.toNat ∧ c.toNat ≤ 57 then some (c.toNat - 48)
  else if 97 ≤ c.toNat ∧ c.toNat ≤ 102 then some (c.toNat - 87)
  else if 65 ≤ c.toNat ∧ c.toNat ≤ 70 then some (c.toNat - 55)
  else none

/-- Node Buffer.from(s, "hex"): decode hex digit pairs, stopping at the
first invalid pair (a trailing lone digit is dropped). -/
def hexDecodeList : List Char → List Nat
  | a :: b :: rest =>
    match hexVal? a, hexVal? b with
    | some x, some y => (16 * x + y) :: hexDecodeList rest
    | _, _ => []
  | _ => []

/-- Hex decoding of a string, Node Buffer semantics. -/
def hexDecode (s : String) : List Nat := hexDecodeList s.data

/-- The hash comparison of the verifier:
computed.length === hash.length && timingSafeEqual(from(computed), from(hash)).
crypto.timingSafeEqual throws when the decoded buffers differ in length; the
surrounding try/catch of the source turns that throw into the invalid result,
which coincides with returning false here. -/
def hashMatches (computed hash : String) : Bool :=
  computed.length == hash.length &&
    (let cb := hexDecode computed
     let hb := hexDecode hash
     if cb.length == hb.length then cb == hb else false)

/-! ### URLSearchParams: application/x-www-form-urlencoded parsing -/

/-- Split a character list at occurrences of the ampersand. -/
def splitAmp (l : List Char) : List (List Char) :=
  l.foldr
    (fun c acc =>
      if c = '&' then [] :: acc
      else
        match acc with
        | h :: t => (c :: h) :: t
        | [] => [[c]])
    [[]]

/-- Split one segment at its first equals sign; no equals sign means the
whole segment is the key and the value is empty. -/
def breakEq : List Char → List Char × Option (List Char)
  | [] => ([], none)
  | c :: r =>
    if c = '=' then ([], some r)
    else
      let p := breakEq r
      (c :: p.1, p.2)

/-- Bytes of one form-encoded token: plus becomes space, a valid
percent-escape becomes its byte, everything else contributes its UTF-8
bytes (an invalid percent sign is kept as the literal byte 37). -/
def formBytes : List Char → List Nat
  | [] => []
  | '+' :: rest => 32 :: formBytes rest
  | '%' :: a :: b :: rest =>
    match hexVal? a, hexVal? b with
    | some x, some y => (16 * x + y) :: formBytes rest
    | _, _ => 37 :: formBytes (a :: b :: rest)
  | '%' :: a :: [] => 37 :: formBytes [a]
  | ['%'] => [37]
  | c :: rest => utf8Char c ++ formBytes rest

/-- Decode UTF-8 bytes to characters, invalid sequences producing U+FFFD.
The fuel argument makes the recursion structural; it is instantiated with
the list length, which the consumption of at least one byte per step never
exhausts. -/
def utf8DecodeGo : Nat → List Nat → List Char
  | 0, _ => []
  | _ + 1, [] => []
  | fuel + 1, b1 :: t1 =>
    if b1 < 128 then Char.ofNat b1 :: utf8DecodeGo fuel t1
    else if 194 ≤ b1 ∧ b1 ≤ 223 then
      match t1 with
      | b2 :: t2 =>
        if 128 ≤ b2 ∧ b2 ≤ 191 then
          Char.ofNat ((b1 - 192) * 64 + (b2 - 128)) :: utf8DecodeGo fuel t2
        else Char.ofNat 65533 :: utf8DecodeGo fuel (b2 :: t2)
      | [] => [Char.ofNat 65533]
    else if 224 ≤ b1 ∧ b1 ≤ 239 then
      match t1 with
      | b2 :: b3 :: t3 =>
        if ((b1 = 224 ∧ 160 ≤ b2 ∧ b2 ≤ 191) ∨
            (b1 = 237 ∧ 128 ≤ b2 ∧ b2 ≤ 159) ∨
            (b1 ≠ 224 ∧ b1 ≠ 237 ∧ 128 ≤ b2 ∧ b2 ≤ 191)) ∧
           128 ≤ b3 ∧ b3 ≤ 191 then
          Char.ofNat ((b1 - 224) * 4096 + (b2 - 128) * 64 + (b3 - 128)) :: utf8DecodeGo fuel t3
        else Char.ofNat 65533 :: utf8DecodeGo fuel (b2 :: b3 :: t3)
      | _ => [Char.ofNat 65533]
    else if 240 ≤ b1 ∧ b1 ≤ 244 then
      match t1 with
      | b2 :: b3 :: b4 :: t4 =>
        if ((b1 = 240 ∧ 144 ≤ b2 ∧ b2 ≤ 191) ∨
            (b1 = 244 ∧ 128 ≤ b2 ∧ b2 ≤ 143) ∨
            (b1 ≠ 240 ∧ b1 ≠ 244 ∧ 128 ≤ b2 ∧ b2 ≤ 191)) ∧
           128 ≤ b3 ∧ b3 ≤ 191 ∧ 128 ≤ b4 ∧ b4 ≤ 191 then
          Char.ofNat ((b1 - 240) * 262144 + (b2 - 128) * 4096 + (b3 - 128) * 64 + (b4 - 128)) ::
            utf8DecodeGo fuel t4
        else Char.ofNat 65533 :: utf8DecodeGo fuel (b2 :: b3 :: b4 :: t4)
      | _ => [Char.ofNat 65533]
    else Char.ofNat 65533 :: utf8DecodeGo fuel t1

/-- Decode UTF-8 bytes to characters. -/
def utf8Decode (l : List Nat) : List Char := utf8DecodeGo l.length l

/-- Decode one form-encoded token to a string. -/
def formDecodeStr (l : List Char) : String := String.mk (utf8Decode (formBytes l))

/-- Model of new URLSearchParams(init): strip one leading question mark,
split on ampersands, skip empty segments, split each segment at its first
equals sign, percent-decode key and value.  Duplicate keys are retained in
order. -/
def parseParams (s : String) : List (String × String) :=
  let l :=
    match s.data with
    | '?' :: r => r
    | l => l
  ((splitAmp l).filter (fun seg => !seg.isEmpty)).map
    (fun seg =>
      let p := breakEq seg
      (formDecodeStr p.1, formDecodeStr (p.2.getD [])))

/-- Model of URLSearchParams.get: the value of the first pair with the given
key, none when absent (the source checks the null result). -/
def getParam (ps : List (String × String)) (k : String) : Option String :=
  (ps.find? (fun p => p.1 == k)).map (fun p => p.2)

/-! ### The default JS Array.prototype.sort order on strings

JS compares strings by their UTF-16 code units, lexicographically.  The sort
itself (any correct sort) returns the unique sorted permutation, since the
order is total and antisymmetric; we model it with insertion sort. -/

/-- Lexicographic less-or-equal on UTF-16 code-unit lists. -/
def unitsLe : List Nat → List Nat → Bool
  | [], _ => true
  | _ :: _, [] => false
  | a :: as, b :: bs => if a < b then true else if a = b then unitsLe as bs else false

/-- The JS default string order (UTF-16 code-unit lexicographic). -/
def jsLeP (a b : String) : Prop := unitsLe (strUnits a) (strUnits b) = true

instance : DecidableRel jsLeP := fun a b => by unfold jsLeP; infer_instance

/-- Model of pairs.sort() on an array of strings. -/
def sortJS (l : List String) : List String := List.insertionSort jsLeP l

/-! ### JSON.parse -/

/-- JSON values.  Numbers are modelled as rationals: the grammar of JSON
numbers is decimal, and the ids appearing in verified tokens are integers,
where the JS double rounding is exact. -/
inductive JsVal where
  | jnull : JsVal
  | jbool : Bool → JsVal
  | jnum : Rat → JsVal
  | jstr : String → JsVal
  | jarr : List JsVal → JsVal
  | jobj : List (String × JsVal) → JsVal

/-- JSON whitespace. -/
def isJsonWs (c : Char) : Bool := c == ' ' || c == '\t' || c == '\n' || c == '\r'

/-- Skip JSON whitespace. -/
def skipWs : List Char → List Char
  | [] => []
  | c :: r => if isJsonWs c then skipWs r else c :: r

/-- Left brace and right brace characters. -/
def lbrace : Char := Char.ofNat 123

/-- Right brace character. -/
def rbrace : Char := Char.ofNat 125

/-- String body after the opening quote: collect UTF-16 code units up to the
closing quote.  Escapes follow the JSON grammar; raw control characters are
rejected. -/
def jsonStrUnits : List Char → Option (List Nat × List Char)
  | [] => none
  | c :: r =>
    if c = '"' then some ([], r)
    else if c = '\\' then
      match r with
      | [] => none
      | e :: r2 =>
        if e = '"' then (jsonStrUnits r2).map (fun p => (34 :: p.1, p.2))
        else if e = '\\' then (jsonStrUnits r2).map (fun p => (92 :: p.1, p.2))
        else if e = '/' then (jsonStrUnits r2).map (fun p => (47 :: p.1, p.2))
        else if e = 'b' then (jsonStrUnits r2).map (fun p => (8 :: p.1, p.2))
        else if e = 'f' then (jsonStrUnits r2).map (fun p => (12 :: p.1, p.2))
        else if e = 'n' then (jsonStrUnits r2).map (fun p => (10 :: p.1, p.2))
        else if e = 'r' then (jsonStrUnits r2).map (fun p => (13 :: p.1, p.2))
        else if e = 't' then (jsonStrUnits r2).map (fun p => (9 :: p.1, p.2))
        else if e = 'u' then
          match r2 with
          | h1 :: h2 :: h3 :: h4 :: r3 =>
            match hexVal? h1, hexVal? h2, hexVal? h3, hexVal? h4 with
            | some x1, some x2, some x3, some x4 =>
              (jsonStrUnits r3).map
                (fun p => ((4096 * x1 + 256 * x2 + 16 * x3 + x4) :: p.1, p.2))
            | _, _, _, _ => none
          | _ => none
        else none
    else if c.toNat < 32 then none
    else (jsonStrUnits r).map (fun p => (charUnits c ++ p.1, p.2))

/-- Digits at the head of the input. -/
def takeDigits : List Char → List Nat × List Char
  | [] => ([], [])
  | c :: r =>
    if 48 ≤ c.toNat ∧ c.toNat ≤ 57 then
      let p := takeDigits r
      ((c.toNat - 48) :: p.1, p.2)
    else ([], c :: r)

/-- Natural number from a digit list. -/
def digitsVal (l : List Nat) : Nat := l.foldl (fun acc d => 10 * acc + d) 0

/-- Parse a JSON number (sign, integer part without redundant leading zeros,
optional fraction, optional exponent) into a rational. -/
def parseJsonNum (cs : List Char) : Option (Rat × List Char) :=
  let signed :=
    match cs with
    | c :: r => if c = '-' then (true, r) else (false, cs)
    | [] => (false, cs)
  let ip := takeDigits signed.2
  match ip.1 with
  | [] => none
  | d0 :: ds =>
    if d0 = 0 ∧ ds ≠ [] then none
    else
      let intPart := digitsVal ip.1
      let fr :=
        match ip.2 with
        | c :: r =>
          if c = '.' then
            let fp := takeDigits r
            match fp.1 with
            | [] => none
            | _ => some (fp.1, fp.2)
          else some ([], ip.2)
        | [] => some ([], ip.2)
      match fr with
      | none => none
      | some (fdigits, rest1) =>
        let ex :=
          match rest1 with
          | c :: r =>
            if c = 'e' ∨ c = 'E' then
              let se :=
                match r with
                | c2 :: r2 =>
                  if c2 = '+' then (false, r2)
                  else if c2 = '-' then (true, r2)
                  else (false, r)
                | [] => (false, r)
              let ep := takeDigits se.2
              match ep.1 with
              | [] => none
              | _ => some (se.1, digitsVal ep.1, ep.2)
            else some (false, 0, rest1)
          | [] => some (false, 0, rest1)
        match ex with
        | none => none
        | some (eneg, eval, rest2) =>
          let fl := fdigits.length
          let mantNum : Nat := intPart * 10 ^ fl + digitsVal fdigits
          let num : Nat := if eneg then mantNum else mantNum * 10 ^ eval
          let den : Nat := if eneg then 10 ^ (fl + eval) else 10 ^ fl
          some ((if signed.1 then mkRat (-(Int.ofNat num)) den
                 else mkRat (Int.ofNat num) den), rest2)

mutual

/-- Parse one JSON value after optional leading whitespace. -/
def parseVal : Nat → List Char → Option (JsVal × List Char)
  | 0, _ => none
  | f + 1, cs =>
    match skipWs cs with
    | 'n' :: 'u' :: 'l' :: 'l' :: r => some (.jnull, r)
    | 't' :: 'r' :: 'u' :: 'e' :: r => some (.jbool true, r)
    | 'f' :: 'a' :: 'l' :: 's' :: 'e' :: r => some (.jbool false, r)
    | '"' :: r => (jsonStrUnits r).map (fun p => (.jstr (String.mk (u16Decode p.1)), p.2))
    | '[' :: r =>
      (match skipWs r with
       | ']' :: r2 => some (.jarr [], r2)
       | _ => (parseElems f r).map (fun p => (.jarr p.1, p.2)))
    | c :: r =>
      if c = lbrace then
        match skipWs r with
        | c2 :: r2 =>
          if c2 = rbrace then some (.jobj [], r2)
          else (parseMembers f (c2 :: r2)).map (fun p => (.jobj p.1, p.2))
        | [] => none
      else if c = '-' ∨ (48 ≤ c.toNat ∧ c.toNat ≤ 57) then
        (parseJsonNum (c :: r)).map (fun p => (.jnum p.1, p.2))
      else none
    | [] => none

/-- Parse the elements of a non-empty JSON array, up to and including the
closing bracket. -/
def parseElems : Nat → List Char → Option (List JsVal × List Char)
  | 0, _ => none
  | f + 1, cs =>
    match parseVal f cs with
    | none => none
    | some (v, rest) =>
      match skipWs rest with
      | ',' :: r2 => (parseElems f r2).map (fun p => (v :: p.1, p.2))
      | ']' :: r2 => some ([v], r2)
      | _ => none

/-- Parse the members of a non-empty JSON object, up to and including the
closing brace. -/
def parseMembers : Nat → List Char → Option (List (String × JsVal) × List Char)
  | 0, _ => none
  | f + 1, cs =>
    match skipWs cs with
    | '"' :: r =>
      match jsonStrUnits r with
      | none => none
      | some (kunits, r2) =>
        match skipWs r2 with
        | ':' :: r3 =>
          match parseVal f r3 with
          | none => none
          | some (v, r4) =>
            let k := String.mk (u16Decode kunits)
            match skipWs r4 with
            | ',' :: r5 => (parseMembers f r5).map (fun p => ((k, v) :: p.1, p.2))
            | c :: r5 =>
              if c = rbrace then some ([(k, v)], r5) else none
            | [] => none
        | _ => none
    | _ => none

end

/-- Model of JSON.parse: parse one value, allow trailing whitespace only. -/
def jsonParse (s : String) : Option JsVal :=
  match parseVal (s.length + 1) s.data with
  | some (v, rest) => if skipWs rest = [] then some v else none
  | none => none

/-- Last-wins lookup in a JSON object (JS object literals from JSON.parse
keep the last duplicate key). -/
def lookupLast (fs : List (String × JsVal)) (k : String) : Option JsVal :=
  fs.foldl (fun acc p => if p.1 == k then some p.2 else acc) none

/-- The source expression: typeof parsedUser?.id === "number" ? parsedUser.id
: null.  Optional chaining yields undefined on non-objects and null. -/
def jsIdNum : JsVal → Option Rat
  | .jobj fs =>
    match lookupLast fs "id" with
    | some (.jnum q) => some q
    | _ => none
  | _ => none

/-! ### The verifier: validateTelegramInitData -/

/-- The tri-state verification result: the source returns
valid: false (invalid), valid: true with userId null (validNoId), or
valid: true with a numeric userId (validWithId). -/
inductive VResult where
  | invalid : VResult
  | validNoId : VResult
  | validWithId : Rat → VResult
deriving DecidableEq

/-- data_check_string: all pairs except hash, formatted key=value, sorted
with the JS default sort, joined by newlines. -/
def dataCheckString (ps : List (String × String)) : String :=
  String.intercalate "\n"
    (sortJS (ps.filterMap (fun p => if p.1 == "hash" then none else some (p.1 ++ "=" ++ p.2))))

/-- The derived secret: HMAC-SHA256 with key "WebAppData" over the bot
token. -/
def deriveSecret (botToken : String) : List Nat :=
  hmacSha256 (utf8Str "WebAppData") (utf8Str botToken)

/-- The lowercase-hex signature of a check string under a bot token. -/
def signatureHex (botToken dcs : String) : String :=
  bytesToHex (hmacSha256 (deriveSecret botToken) (utf8Str dcs))

/-- Resolution of the user pair after a successful signature check.  The
source guard if (!userParam) is a JS falsiness test: it returns the valid
no-identity result both when the user pair is absent (get returned null)
and when its value is the empty string.  A non-empty user value that fails
JSON.parse throws, and the catch-all of the source converts the throw to
the invalid result. -/
def resolveUser (ps : List (String × String)) : VResult :=
  match getParam ps "user" with
  | none => .validNoId
  | some u =>
    if u = "" then .validNoId
    else
      match jsonParse u with
      | none => .invalid
      | some j =>
        match jsIdNum j with
        | some q => .validWithId q
        | none => .validNoId

/-- validateTelegramInitData(initData, botToken) from the source. -/
def validateTelegramInitData (initData botToken : String) : VResult :=
  match getParam (parseParams initData) "hash" with
  | none => .invalid
  | some h =>
    if hashMatches (signatureHex botToken (dataCheckString (parseParams initData))) h
    then resolveUser (parseParams initData)
    else .invalid

/-! ### The submission workflow: route handlers over an explicit store

The record store is the document_submissions table, modelled as a list of
rows; select by telegram_chat_id is a filter with limit 1 (head of the
filtered list), insert appends, update maps over matching rows.  Fallible
external outcomes (select error, blob upload result, insert error, update
error) are supplied by an explicit context, as is the environment
(TELEGRAM_BOT_TOKEN) and the freshness sources Date.now() and the
Math.random() suffix.  Handlers additionally return the trace of external
calls they made. -/

/-- A multipart file entry: name, byte size and content type. -/
structure TgFile where
  name : String
  size : Nat
  mime : String
deriving DecidableEq

/-- A form-data entry is a file or a string (formData.get may return
either). -/
inductive FormEntry where
  | fileEntry : TgFile → FormEntry
  | strEntry : String → FormEntry
deriving DecidableEq

/-- JS truthiness of an optional string: null/undefined and the empty
string are falsy. -/
def strTruthy : Option String → Bool
  | none => false
  | some s => decide (s ≠ "")

/-- A document_submissions row. -/
structure Row where
  firstName : String
  lastName : String
  university : String
  program : String
  docPath : Option String
  telegramChatId : Option Rat
deriving DecidableEq

/-- Errors the insert call of the repository can report. -/
inductive InsErr where
  | uniqueViolation : InsErr
  | otherFailure : InsErr
deriving DecidableEq

/-- Environment and external-call outcomes for one request. -/
structure Ctx where
  botToken : Option String
  now : Nat
  rand : String
  selectError : Bool
  uploadResult : Option String
  insertError : Option InsErr
  updateError : Bool
deriving DecidableEq

/-- Trace of external calls: verifier invocation, select by chat id, blob
upload, row insert, row update. -/
inductive Eff where
  | effVerify : String → String → Eff
  | effSelect : Rat → Eff
  | effUpload : String → Eff
  | effInsert : Row → Eff
  | effUpdate : Rat → Eff
deriving DecidableEq

/-- The POST request form fields after ?.toString(). -/
structure PostReq where
  firstName : Option String
  lastName : Option String
  university : Option String
  program : Option String
  document : Option FormEntry
  initData : Option String
deriving DecidableEq

/-- document instanceof File. -/
def isFile : Option FormEntry → Bool
  | some (.fileEntry _) => true
  | _ => false

/-- The POST required-input check:
!firstName || !lastName || !university || !program || !(document instanceof
File), negated. -/
def postInputOk (r : PostReq) : Bool :=
  strTruthy r.firstName && strTruthy r.lastName && strTruthy r.university &&
    strTruthy r.program && isFile r.document

/-- name.replace of every character outside A-Za-z0-9.- by an underscore.
The JS regex without the u flag works per UTF-16 code unit, so an astral
character is replaced by two underscores. -/
def isSafeChar (c : Char) : Bool :=
  (97 ≤ c.toNat && c.toNat ≤ 122) || (65 ≤ c.toNat && c.toNat ≤ 90) ||
    (48 ≤ c.toNat && c.toNat ≤ 57) || c == '.' || c == '-'

/-- Sanitized file name. -/
def sanitizeFileName (s : String) : String :=
  String.mk (s.data.flatMap (fun c => if isSafeChar c then [c] else
    List.replicate (charUnits c).length '_'))

/-- The generated blob path
documents/Date.now()-randomSuffix-safeFileName. -/
def mkFilePath (ctx : Ctx) (name : String) : String :=
  "documents/" ++ toString ctx.now ++ "-" ++ ctx.rand ++ "-" ++ sanitizeFileName name

/-- The select condition eq telegram_chat_id uid. -/
def rowMatches (uid : Rat) (r : Row) : Bool := decide (r.telegramChatId = some uid)

/-- The row inserted by POST. -/
def newRow (req : PostReq) (p : String) (tgid : Option Rat) : Row :=
  ⟨req.firstName.getD "", req.lastName.getD "", req.university.getD "",
   req.program.getD "", some p, tgid⟩

/-- POST responses, in source order of the return statements. -/
inductive PostRes where
  | missingFields : PostRes
  | invalidTelegram : PostRes
  | noUser : PostRes
  | checkError : PostRes
  | duplicate : PostRes
  | uploadFailed : PostRes
  | saveFailed : PostRes
  | created : PostRes
deriving DecidableEq

/-- HTTP status of each POST response. -/
def postStatus : PostRes → Nat
  | .missingFields => 400
  | .invalidTelegram => 401
  | .noUser => 400
  | .checkError => 500
  | .duplicate => 409
  | .uploadFailed => 500
  | .saveFailed => 500
  | .created => 200

/-- Outcome of POST: response, resulting store, trace of external calls. -/
structure PostOut where
  res : PostRes
  store : List Row
  effs : List Eff
deriving DecidableEq

/-- The upload-and-insert tail of POST. -/
def postUpload (ctx : Ctx) (req : PostReq) (f : TgFile) (store : List Row)
    (tgid : Option Rat) (effs : List Eff) : PostOut :=
  let path := mkFilePath ctx f.name
  let effs2 := effs ++ [Eff.effUpload path]
  match ctx.uploadResult with
  | none => ⟨.uploadFailed, store, effs2⟩
  | some p =>
    if p = "" then ⟨.uploadFailed, store, effs2⟩
    else
      let row := newRow req p tgid
      let effs3 := effs2 ++ [Eff.effInsert row]
      match ctx.insertError with
      | some _ => ⟨.saveFailed, store, effs3⟩
      | none => ⟨.created, store ++ [row], effs3⟩

/-- The duplicate check and tail of POST once a non-zero identity is
resolved. -/
def postIdentified (ctx : Ctx) (req : PostReq) (f : TgFile) (store : List Row)
    (i b : String) (q : Rat) : PostOut :=
  if ctx.selectError then ⟨.checkError, store, [.effVerify i b, .effSelect q]⟩
  else if store.any (rowMatches q) then ⟨.duplicate, store, [.effVerify i b, .effSelect q]⟩
  else postUpload ctx req f store (some q) [.effVerify i b, .effSelect q]

/-- The branch of POST taken when both initData and the bot token are
present; an empty string in either is falsy and skips verification. -/
def postTok (ctx : Ctx) (req : PostReq) (f : TgFile) (store : List Row)
    (i b : String) : PostOut :=
  if i ≠ "" ∧ b ≠ "" then
    match validateTelegramInitData i b with
    | .invalid => ⟨.invalidTelegram, store, [.effVerify i b]⟩
    | .validNoId => ⟨.noUser, store, [.effVerify i b]⟩
    | .validWithId q =>
      if q = 0 then ⟨.noUser, store, [.effVerify i b]⟩
      else postIdentified ctx req f store i b q
  else postUpload ctx req f store none []

/-- The POST route handler (create). -/
def POST (ctx : Ctx) (req : PostReq) (store : List Row) : PostOut :=
  if !(postInputOk req) then ⟨.missingFields, store, []⟩
  else
    match req.document with
    | some (.fileEntry f) =>
      match req.initData, ctx.botToken with
      | some i, some b => postTok ctx req f store i b
      | _, _ => postUpload ctx req f store none []
    | _ => ⟨.missingFields, store, []⟩

/-- The GET request: initData query parameter and x-telegram-init header. -/
structure GetReq where
  queryInitData : Option String
  headerInit : Option String
deriving DecidableEq

/-- JS a || b on optional strings. -/
def jsOrStr (a b : Option String) : Option String := if strTruthy a then a else b

/-- The redacted projection returned by GET (no identity key). -/
structure SubProj where
  firstName : String
  lastName : String
  university : String
  program : String
  docPath : Option String
deriving DecidableEq

/-- Projection of a row. -/
def projRow (r : Row) : SubProj := ⟨r.firstName, r.lastName, r.university, r.program, r.docPath⟩

/-- GET responses: the early exists:false, the select-error 500, or the
exists/submission payload. -/
inductive GetRes where
  | gNoExists : GetRes
  | gCheckError : GetRes
  | gResult : Bool → Option SubProj → GetRes
deriving DecidableEq

/-- HTTP status of each GET response. -/
def getStatus : GetRes → Nat
  | .gCheckError => 500
  | _ => 200

/-- The select and projection tail of GET once a non-zero identity is
resolved. -/
def getSel (ctx : Ctx) (store : List Row) (i b : String) (q : Rat) : GetRes × List Eff :=
  if ctx.selectError then (.gCheckError, [.effVerify i b, .effSelect q])
  else
    match (store.filter (rowMatches q)).head? with
    | some r => (.gResult true (some (projRow r)), [.effVerify i b, .effSelect q])
    | none => (.gResult false none, [.effVerify i b, .effSelect q])

/-- The branch of GET taken when both initData and the bot token are
present. -/
def getTok (ctx : Ctx) (store : List Row) (i b : String) : GetRes × List Eff :=
  if i ≠ "" ∧ b ≠ "" then
    match validateTelegramInitData i b with
    | .validWithId q =>
      if q = 0 then (.gNoExists, [.effVerify i b])
      else getSel ctx store i b q
    | _ => (.gNoExists, [.effVerify i b])
  else (.gNoExists, [])

/-- The GET route handler (fetch-existing). -/
def GET (ctx : Ctx) (req : GetReq) (store : List Row) : GetRes × List Eff :=
  match jsOrStr req.queryInitData req.headerInit, ctx.botToken with
  | some i, some b => getTok ctx store i b
  | _, _ => (.gNoExists, [])

/-- The PUT request form fields. -/
structure PutReq where
  initData : Option String
  firstName : Option String
  lastName : Option String
  university : Option String
  program : Option String
  document : Option FormEntry
deriving DecidableEq

/-- PUT responses, in source order of the return statements. -/
inductive PutRes where
  | pNeedData : PutRes
  | pNotVerified : PutRes
  | pMissing : PutRes
  | pCheckError : PutRes
  | pNotFound : PutRes
  | pUploadFailed : PutRes
  | pUpdateFailed : PutRes
  | pOk : Option String → PutRes
deriving DecidableEq

/-- HTTP status of each PUT response. -/
def putStatus : PutRes → Nat
  | .pNeedData => 400
  | .pNotVerified => 401
  | .pMissing => 400
  | .pCheckError => 500
  | .pNotFound => 404
  | .pUploadFailed => 500
  | .pUpdateFailed => 500
  | .pOk _ => 200

/-- The PUT required-fields check. -/
def putFieldsOk (r : PutReq) : Bool :=
  strTruthy r.firstName && strTruthy r.lastName && strTruthy r.university &&
    strTruthy r.program

/-- The row update applied by PUT to every row matching the identity:
mutable fields from the request, doc_path from the resolved value, the
identity key untouched. -/
def updRow (req : PutReq) (dp : Option String) (r : Row) : Row :=
  ⟨req.firstName.getD "", req.lastName.getD "", req.university.getD "",
   req.program.getD "", dp, r.telegramChatId⟩

/-- The update tail of PUT. -/
def putFinish (ctx : Ctx) (req : PutReq) (q : Rat) (dp : Option String)
    (store : List Row) (effs : List Eff) : PutRes × List Row × List Eff :=
  let effs2 := effs ++ [Eff.effUpdate q]
  if ctx.updateError then (.pUpdateFailed, store, effs2)
  else (.pOk dp, store.map (fun r => if rowMatches q r then updRow req dp r else r), effs2)

/-- The upload branch of PUT when a new document file is supplied. -/
def putNewDoc (ctx : Ctx) (req : PutReq) (store : List Row) (i b : String)
    (q : Rat) (f : TgFile) : PutRes × List Row × List Eff :=
  match ctx.uploadResult with
  | none =>
    (.pUploadFailed, store,
     [Eff.effVerify i b, Eff.effSelect q, Eff.effUpload (mkFilePath ctx f.name)])
  | some p =>
    if p = "" then
      (.pUploadFailed, store,
       [Eff.effVerify i b, Eff.effSelect q, Eff.effUpload (mkFilePath ctx f.name)])
    else
      putFinish ctx req q (some p) store
        [Eff.effVerify i b, Eff.effSelect q, Eff.effUpload (mkFilePath ctx f.name)]

/-- The document resolution of PUT: a new file replaces the stored path,
anything else retains the path of the found row. -/
def putDoc (ctx : Ctx) (req : PutReq) (store : List Row) (i b : String)
    (q : Rat) (r0 : Row) : PutRes × List Row × List Eff :=
  match req.document with
  | some (.fileEntry f) => putNewDoc ctx req store i b q f
  | _ => putFinish ctx req q r0.docPath store [Eff.effVerify i b, Eff.effSelect q]

/-- The fields check, lookup and tail of PUT once a non-zero identity is
resolved. -/
def putFields (ctx : Ctx) (req : PutReq) (store : List Row) (i b : String)
    (q : Rat) : PutRes × List Row × List Eff :=
  if !(putFieldsOk req) then (.pMissing, store, [.effVerify i b])
  else if ctx.selectError then (.pCheckError, store, [.effVerify i b, .effSelect q])
  else
    match (store.filter (rowMatches q)).head? with
    | none => (.pNotFound, store, [.effVerify i b, .effSelect q])
    | some r0 => putDoc ctx req store i b q r0

/-- The branch of PUT taken when both initData and the bot token are
present. -/
def putTok (ctx : Ctx) (req : PutReq) (store : List Row) (i b : String) :
    PutRes × List Row × List Eff :=
  if i ≠ "" ∧ b ≠ "" then
    match validateTelegramInitData i b with
    | .validWithId q =>
      if q = 0 then (.pNotVerified, store, [.effVerify i b])
      else putFields ctx req store i b q
    | _ => (.pNotVerified, store, [.effVerify i b])
  else (.pNeedData, store, [])

/-- The PUT route handler (update). -/
def PUT (ctx : Ctx) (req : PutReq) (store : List Row) : PutRes × List Row × List Eff :=
  match req.initData, ctx.botToken with
  | some i, some b => putTok ctx req store i b
  | _, _ => (.pNeedData, store, [])

/-! ### Digest shape lemmas -/

/-- Each byte of a word decomposition is below 256. -/
theorem wordBytes_lt (w : Nat) : ∀ b ∈ wordBytes w, b < 256 := by
  intro b hb
  simp [wordBytes] at hb
  rcases hb with h | h | h | h <;> omega

/-- Each digest byte is below 256. -/
theorem hashBytes_lt (st : Hash8) : ∀ b ∈ hashBytes st, b < 256 := by
  intro b hb
  simp [hashBytes, wordBytes] at hb
  omega

/-- The digest has 32 bytes. -/
theorem hashBytes_length (st : Hash8) : (hashBytes st).length = 32 := by
  simp [hashBytes, wordBytes]

/-- SHA-256 output length. -/
theorem sha256_length (m : List Nat) : (sha256 m).length = 32 := by
  simp only [sha256]
  exact hashBytes_length _

/-- SHA-256 output bytes are below 256. -/
theorem sha256_lt (m : List Nat) : ∀ b ∈ sha256 m, b < 256 := by
  simp only [sha256]
  exact hashBytes_lt _

/-- HMAC output length. -/
theorem hmacSha256_length (k m : List Nat) : (hmacSha256 k m).length = 32 := by
  simp only [hmacSha256]
  exact sha256_length _

/-- HMAC output bytes are below 256. -/
theorem hmacSha256_lt (k m : List Nat) : ∀ b ∈ hmacSha256 k m, b < 256 := by
  simp only [hmacSha256]
  exact sha256_lt _

/-- Length of the hex encoding as a character list. -/
theorem flatMap_byteHexChars_length (bs : List Nat) :
    (bs.flatMap byteHexChars).length = 2 * bs.length := by
  induction bs with
  | nil => rfl
  | cons b t ih =>
    simp only [List.flatMap_cons, List.length_append, ih, byteHexChars]
    simp
    omega

/-- Length of the hex encoding. -/
theorem bytesToHex_length (bs : List Nat) : (bytesToHex bs).length = 2 * bs.length :=
  flatMap_byteHexChars_length bs

/-- Hex digits round-trip through encoding. -/
theorem hexVal_hexDigitChar : ∀ x < 16, hexVal? (hexDigitChar x) = some x := by decide

/-- Hex decoding inverts hex encoding on byte lists. -/
theorem hexDecodeList_flatMap (bs : List Nat) (h : ∀ b ∈ bs, b < 256) :
    hexDecodeList (bs.flatMap byteHexChars) = bs := by
  induction bs with
  | nil => rfl
  | cons b t ih =>
    have hb : b < 256 := h b (List.mem_cons_self _ _)
    have h1 : b / 16 < 16 := by omega
    have h2 : b % 16 < 16 := by omega
    have hrest := ih (fun x hx => h x (List.mem_cons_of_mem _ hx))
    show hexDecodeList (hexDigitChar (b / 16) :: hexDigitChar (b % 16) ::
      t.flatMap byteHexChars) = b :: t
    simp only [hexDecodeList, hexVal_hexDigitChar _ h1, hexVal_hexDigitChar _ h2, hrest,
      List.cons.injEq, and_true]
    omega

/-- Hex decoding inverts hex encoding. -/
theorem hexDecode_bytesToHex (bs : List Nat) (h : ∀ b ∈ bs, b < 256) :
    hexDecode (bytesToHex bs) = bs :=
  hexDecodeList_flatMap bs h

/-- The signature hex string has 64 characters. -/
theorem signatureHex_length (bt dcs : String) : (signatureHex bt dcs).length = 64 := by
  unfold signatureHex
  rw [bytesToHex_length, hmacSha256_length]

/-- The hash comparison rejects any 32-byte hex hash whose encoding differs
from the computed signature. -/
theorem hashMatches_ne (s d : String) (bs : List Nat) (hlt : ∀ b ∈ bs, b < 256)
    (hlen : bs.length = 32) (hne : signatureHex s d ≠ bytesToHex bs) :
    hashMatches (signatureHex s d) (bytesToHex bs) = false := by
  have hcs_lt : ∀ b ∈ hmacSha256 (deriveSecret s) (utf8Str d), b < 256 := hmacSha256_lt _ _
  have hcb : hexDecode (signatureHex s d) = hmacSha256 (deriveSecret s) (utf8Str d) :=
    hexDecode_bytesToHex _ hcs_lt
  have hhb : hexDecode (bytesToHex bs) = bs := hexDecode_bytesToHex _ hlt
  have hlc : (signatureHex s d).length = 64 := signatureHex_length s d
  have hlh : (bytesToHex bs).length = 64 := by rw [bytesToHex_length, hlen]
  have hbne : (hmacSha256 (deriveSecret s) (utf8Str d) ==
      bs : Bool) = false := by
    cases hq : (hmacSha256 (deriveSecret s) (utf8Str d) == bs : Bool) with
    | false => rfl
    | true =>
      exact absurd (congrArg bytesToHex (eq_of_beq hq)) hne
  simp only [hashMatches, hlc, hlh, hcb, hhb, hmacSha256_length, hlen, hbne]
  simp

/-! ### The JS string order is total, transitive and antisymmetric -/

/-- Totality of the code-unit order. -/
theorem unitsLe_total : ∀ l1 l2 : List Nat, unitsLe l1 l2 = true ∨ unitsLe l2 l1 = true := by
  intro l1
  induction l1 with
  | nil => intro l2; left; rfl
  | cons a as ih =>
    intro l2
    cases l2 with
    | nil => right; rfl
    | cons b bs =>
      rcases Nat.lt_trichotomy a b with h | h | h
      · left; simp [unitsLe, h]
      · subst h
        rcases ih bs with h2 | h2
        · left; simp [unitsLe, h2]
        · right; simp [unitsLe, h2]
      · right; simp [unitsLe, h]

/-- Transitivity of the code-unit order. -/
theorem unitsLe_trans : ∀ l1 l2 l3 : List Nat,
    unitsLe l1 l2 = true → unitsLe l2 l3 = true → unitsLe l1 l3 = true := by
  intro l1
  induction l1 with
  | nil => intro l2 l3 _ _; rfl
  | cons a as ih =>
    intro l2 l3 h12 h23
    cases l2 with
    | nil => simp [unitsLe] at h12
    | cons b bs =>
      cases l3 with
      | nil => simp [unitsLe] at h23
      | cons c cs =>
        simp only [unitsLe] at h12 h23 ⊢
        by_cases hab : a < b
        · by_cases hbc : b < c
          · rw [if_pos (show a < c by omega)]
          · rw [if_neg hbc] at h23
            by_cases hbceq : b = c
            · subst hbceq
              rw [if_pos hab]
            · rw [if_neg hbceq] at h23
              exact absurd h23 (by simp)
        · rw [if_neg hab] at h12
          by_cases habeq : a = b
          · subst habeq
            rw [if_pos rfl] at h12
            by_cases hac : a < c
            · rw [if_pos hac]
            · rw [if_neg hac] at h23 ⊢
              by_cases haceq : a = c
              · rw [if_pos haceq] at h23 ⊢
                exact ih bs cs h12 h23
              · rw [if_neg haceq] at h23
                exact absurd h23 (by simp)
          · rw [if_neg habeq] at h12
            exact absurd h12 (by simp)

/-- Antisymmetry of the code-unit order. -/
theorem unitsLe_antisymm : ∀ l1 l2 : List Nat,
    unitsLe l1 l2 = true → unitsLe l2 l1 = true → l1 = l2 := by
  intro l1
  induction l1 with
  | nil =>
    intro l2 _ h21
    cases l2 with
    | nil => rfl
    | cons b bs => simp [unitsLe] at h21
  | cons a as ih =>
    intro l2 h12 h21
    cases l2 with
    | nil => simp [unitsLe] at h12
    | cons b bs =>
      simp only [unitsLe] at h12 h21
      by_cases hab : a < b
      · rw [if_neg (show ¬ b < a by omega), if_neg (show ¬ b = a by omega)] at h21
        exact absurd h21 (by simp)
      · rw [if_neg hab] at h12
        by_cases habeq : a = b
        · subst habeq
          rw [if_pos rfl] at h12
          rw [if_neg hab, if_pos rfl] at h21
          rw [ih bs h12 h21]
        · rw [if_neg habeq] at h12
          exact absurd h12 (by simp)

/-- Characters are determined by their scalar value. -/
theorem char_toNat_inj {c d : Char} (h : c.toNat = d.toNat) : c = d :=
  Char.ext (UInt32.ext h)

/-- Validity bounds of a character scalar value: never a surrogate, below
0x110000. -/
theorem char_toNat_valid (c : Char) :
    c.toNat < 55296 ∨ (57343 < c.toNat ∧ c.toNat < 1114112) := by
  have h := c.valid
  unfold UInt32.isValidChar Nat.isValidChar at h
  exact h

/-- BMP characters encode as one code unit. -/
theorem charUnits_bmp {c : Char} (h : c.toNat < 65536) : charUnits c = [c.toNat] := by
  unfold charUnits
  simp [h]

/-- Astral characters encode as a surrogate pair. -/
theorem charUnits_astral {c : Char} (h : ¬ c.toNat < 65536) :
    charUnits c = [55296 + (c.toNat - 65536) / 1024, 56320 + (c.toNat - 65536) % 1024] := by
  unfold charUnits
  simp [h]

/-- A character always has at least one code unit. -/
theorem charUnits_ne_nil (c : Char) : charUnits c ≠ [] := by
  by_cases h : c.toNat < 65536
  · rw [charUnits_bmp h]; simp
  · rw [charUnits_astral h]; simp

/-- UTF-16 encoding is a prefix code on characters. -/
theorem charUnits_cancel {c d : Char} {x y : List Nat}
    (h : charUnits c ++ x = charUnits d ++ y) : c = d ∧ x = y := by
  have hc := char_toNat_valid c
  have hd := char_toNat_valid d
  by_cases h1 : c.toNat < 65536 <;> by_cases h2 : d.toNat < 65536
  · rw [charUnits_bmp h1, charUnits_bmp h2] at h
    simp only [List.cons_append, List.nil_append] at h
    injection h with h3 h4
    exact ⟨char_toNat_inj h3, h4⟩
  · rw [charUnits_bmp h1, charUnits_astral h2] at h
    simp only [List.cons_append, List.nil_append] at h
    injection h with h3 _
    exfalso
    omega
  · rw [charUnits_astral h1, charUnits_bmp h2] at h
    simp only [List.cons_append, List.nil_append] at h
    injection h with h3 _
    exfalso
    omega
  · rw [charUnits_astral h1, charUnits_astral h2] at h
    simp only [List.cons_append, List.nil_append] at h
    injection h with h3 h45
    injection h45 with h4 h5
    refine ⟨char_toNat_inj ?_, h5⟩
    omega

/-- UTF-16 encoding of strings is injective. -/
theorem strUnits_inj : ∀ {cs ds : List Char},
    cs.flatMap charUnits = ds.flatMap charUnits → cs = ds := by
  intro cs
  induction cs with
  | nil =>
    intro ds h
    cases ds with
    | nil => rfl
    | cons d dt =>
      exfalso
      rw [List.flatMap_nil, List.flatMap_cons] at h
      exact charUnits_ne_nil d (List.append_eq_nil.mp h.symm).1
  | cons c ct ih =>
    intro ds h
    cases ds with
    | nil =>
      exfalso
      rw [List.flatMap_cons, List.flatMap_nil] at h
      exact charUnits_ne_nil c (List.append_eq_nil.mp h).1
    | cons d dt =>
      rw [List.flatMap_cons, List.flatMap_cons] at h
      obtain ⟨hcd, ht⟩ := charUnits_cancel h
      rw [hcd, ih ht]

instance : IsTotal String jsLeP := ⟨fun _ _ => unitsLe_total _ _⟩

instance : IsTrans String jsLeP := ⟨fun _ _ _ h1 h2 => unitsLe_trans _ _ _ h1 h2⟩

instance : IsAntisymm String jsLeP :=
  ⟨fun a b h1 h2 => by
    have hu : strUnits a = strUnits b := unitsLe_antisymm _ _ h1 h2
    have hd : a.data = b.data := strUnits_inj hu
    cases a with
    | mk la =>
      cases b with
      | mk lb => exact congrArg String.mk hd⟩

/-- The sort of a list of strings depends only on its multiset of
elements. -/
theorem sortJS_perm_eq {l1 l2 : List String} (p : l1.Perm l2) : sortJS l1 = sortJS l2 :=
  List.eq_of_perm_of_sorted
    ((List.perm_insertionSort _ l1).trans (p.trans (List.perm_insertionSort _ l2).symm))
    (List.sorted_insertionSort _ l1) (List.sorted_insertionSort _ l2)

/-- The check string depends only on the multiset of pairs. -/
theorem dataCheckString_perm {p1 p2 : List (String × String)} (h : p1.Perm p2) :
    dataCheckString p1 = dataCheckString p2 := by
  unfold dataCheckString
  rw [sortJS_perm_eq (h.filterMap _)]

/-! ### Reduction helpers for the verifier and the handlers -/

/-- The verifier rejects when the hash pair is absent. -/
theorem validate_none (i b : String) (hg : getParam (parseParams i) "hash" = none) :
    validateTelegramInitData i b = .invalid := by
  unfold validateTelegramInitData
  rw [hg]

/-- The verifier with the hash pair present. -/
theorem validate_some (i b h : String) (hg : getParam (parseParams i) "hash" = some h) :
    validateTelegramInitData i b =
      if hashMatches (signatureHex b (dataCheckString (parseParams i))) h
      then resolveUser (parseParams i) else .invalid := by
  unfold validateTelegramInitData
  rw [hg]

/-- User resolution without a user pair. -/
theorem resolveUser_none (ps : List (String × String)) (h : getParam ps "user" = none) :
    resolveUser ps = .validNoId := by
  unfold resolveUser
  rw [h]

/-- User resolution with a present, non-empty (truthy) user value. -/
theorem resolveUser_some (ps : List (String × String)) (u : String)
    (h : getParam ps "user" = some u) (hne : u ≠ "") :
    resolveUser ps =
      match jsonParse u with
      | none => .invalid
      | some j =>
        match jsIdNum j with
        | some q => .validWithId q
        | none => .validNoId := by
  unfold resolveUser
  rw [h]
  show (if u = "" then VResult.validNoId
        else
          match jsonParse u with
          | none => VResult.invalid
          | some j =>
            match jsIdNum j with
            | some q => VResult.validWithId q
            | none => VResult.validNoId) = _
  rw [if_neg hne]

/-- User resolution with an empty (falsy) user value: the source guard
if (!userParam) yields the valid no-identity result. -/
theorem resolveUser_empty (ps : List (String × String))
    (h : getParam ps "user" = some "") : resolveUser ps = .validNoId := by
  unfold resolveUser
  rw [h]
  rfl

/-- User resolution depends only on the first user occurrence. -/
theorem resolveUser_congr (ps1 ps2 : List (String × String))
    (h : getParam ps1 "user" = getParam ps2 "user") :
    resolveUser ps1 = resolveUser ps2 := by
  unfold resolveUser
  rw [h]

/-- POST rejects missing input before any external call. -/
theorem POST_missing (ctx : Ctx) (req : PostReq) (store : List Row)
    (h : postInputOk req = false) : POST ctx req store = ⟨.missingFields, store, []⟩ := by
  unfold POST
  rw [h]
  rfl

/-! ### Concrete tokens and their signatures -/

/-- The check string of the worked example: a=1 and b=2 joined by a
newline. -/
def dcsC1 : String := "a=1\nb=2"

/-- hex(HMAC-SHA256(HMAC-SHA256("WebAppData", "SECRET"), "a=1\nb=2")). -/
def hashC1 : String := "5053d378a94c2ad96df30a65392054213ccbbab2f199ab2d4ac7f1be92de68ba"

/-- The worked-example token signed with the secret SECRET. -/
def tokC1 : String := "a=1&b=2&hash=" ++ hashC1

-- The literal is indeed the signature of the check string under SECRET.
example : signatureHex "SECRET" dcsC1 = hashC1 := by decide

/-- Signature of the duplicate-user check string under SECRET. -/
def hashC2 : String := "41ee61eb8f0187d7edf33f55e2bc320d2a86ca8480761e00aa3011a09a0f3310"

/-- Token with two user pairs, ids 1 then 2, correctly signed. -/
def tokC2a : String := "user=\x7b\"id\":1\x7d&user=\x7b\"id\":2\x7d&hash=" ++ hashC2

/-- The same pairs in the opposite order, same hash. -/
def tokC2b : String := "user=\x7b\"id\":2\x7d&user=\x7b\"id\":1\x7d&hash=" ++ hashC2

-- The literal signs the sorted check string shared by both orders.
example : signatureHex "SECRET" "user=\x7b\"id\":1\x7d\nuser=\x7b\"id\":2\x7d" = hashC2 := by
  decide

/-- Signature of the check string user=x under SECRET. -/
def hashC4bad : String := "f7c63e851d7af4a073830382a84cfe81a8d3af7ec4f1ee58ee3d8bcabe25576d"

/-- A correctly signed token whose user value x is not JSON. -/
def tokC4bad : String := "user=x&hash=" ++ hashC4bad

example : signatureHex "SECRET" "user=x" = hashC4bad := by decide

/-- Signature of the check string with a string-valued id under SECRET. -/
def hashC4ni : String := "c097665b87bf39ca192225e4054ba5bb4f4542dd9ea5166ca57e420b41303a1e"

/-- A correctly signed token whose user JSON has a non-numeric id. -/
def tokC4ni : String := "user=\x7b\"id\":\"x\"\x7d&hash=" ++ hashC4ni

example : signatureHex "SECRET" "user=\x7b\"id\":\"x\"\x7d" = hashC4ni := by decide

/-- Signature of the check string with user id 1 under SECRET. -/
def hashU1 : String := "ad7babacc0b3a82550fb95147b558eced4ee1d3369d207b7eab79f5b8de4f6a4"

/-- A correctly signed token carrying user id 1. -/
def tokU1 : String := "user=\x7b\"id\":1\x7d&hash=" ++ hashU1

example : signatureHex "SECRET" "user=\x7b\"id\":1\x7d" = hashU1 := by decide

-- The identity-carrying token resolves to id 1 under SECRET.
example : validateTelegramInitData tokU1 "SECRET" = .validWithId 1 := by decide

-- The falsy guard of the source: a correctly signed token whose user value
-- is the empty string verifies with the no-identity result.
example :
    validateTelegramInitData ("user=&hash=" ++ signatureHex "SECRET" "user=") "SECRET" =
      .validNoId := by
  decide

/-! ### Claims about the verifier -/

/-- C1: the worked-example token a=1&b=2&hash=H, where H is the two-stage
HMAC-SHA256 signature of the check string a=1 newline b=2 under the secret
SECRET, verifies successfully (valid, with no identity since no user pair
is present) against SECRET; and against every secret whose computed
signature over that check string differs from H — in particular any
concretely different secret, as the witness shows — verification fails
with the invalid result. -/
theorem c1_example_token (s : String) (hne : signatureHex s dcsC1 ≠ hashC1) :
    validateTelegramInitData tokC1 "SECRET" = .validNoId ∧
      validateTelegramInitData tokC1 s = .invalid := by
  constructor
  · decide
  · have hget : getParam (parseParams tokC1) "hash" = some hashC1 := by decide
    have hdcs : dataCheckString (parseParams tokC1) = dcsC1 := by decide
    have hbs : bytesToHex (hexDecode hashC1) = hashC1 := by decide
    have hlt : ∀ b ∈ hexDecode hashC1, b < 256 := by decide
    have hlen : (hexDecode hashC1).length = 32 := by decide
    have h0 : signatureHex s dcsC1 ≠ bytesToHex (hexDecode hashC1) := by
      rw [hbs]; exact hne
    have h1 := hashMatches_ne s dcsC1 (hexDecode hashC1) hlt hlen h0
    rw [hbs] at h1
    rw [validate_some tokC1 s hashC1 hget, hdcs, h1]
    rfl

/-- Witness for c1_example_token: the concrete secret OTHER computes a
different signature, and the example token is rejected under it. -/
theorem c1_example_token_witness :
    signatureHex "OTHER" dcsC1 ≠ hashC1 ∧
      validateTelegramInitData tokC1 "OTHER" = .invalid := by
  have h : signatureHex "OTHER" dcsC1 ≠ hashC1 := by decide
  exact ⟨h, (c1_example_token "OTHER" h).2⟩

/-- C2 counterexample: two tokens holding the same pairs (two user pairs
with ids 1 and 2) in different orders, with the same correct hash, both
verify, but they do not yield the same verification result: the extracted
identity is the first user occurrence, which the permutation changes. -/
theorem c2_perm_counterexample :
    (parseParams tokC2a).Perm (parseParams tokC2b) ∧
      getParam (parseParams tokC2a) "hash" = getParam (parseParams tokC2b) "hash" ∧
      validateTelegramInitData tokC2a "SECRET" = .validWithId 1 ∧
      validateTelegramInitData tokC2b "SECRET" = .validWithId 2 ∧
      validateTelegramInitData tokC2a "SECRET" ≠ validateTelegramInitData tokC2b "SECRET" :=
  ⟨by decide, by decide, by decide, by decide, by decide⟩

/-- C2 (amended): permuting the pairs of a token never changes the computed
check string, hence never the computed signature; and when additionally the
first hash occurrence and the first user occurrence are unchanged — in
particular always when keys are unique — the whole verification result is
unchanged. -/
theorem c2_signature_order_invariant (t1 t2 s : String)
    (hp : (parseParams t1).Perm (parseParams t2)) :
    dataCheckString (parseParams t1) = dataCheckString (parseParams t2) ∧
      (getParam (parseParams t1) "hash" = getParam (parseParams t2) "hash" →
        getParam (parseParams t1) "user" = getParam (parseParams t2) "user" →
        validateTelegramInitData t1 s = validateTelegramInitData t2 s) := by
  have hdcs := dataCheckString_perm hp
  refine ⟨hdcs, fun hh hu => ?_⟩
  cases hg : getParam (parseParams t2) "hash" with
  | none => rw [validate_none t1 s (hh.trans hg), validate_none t2 s hg]
  | some h =>
    rw [validate_some t1 s h (hh.trans hg), validate_some t2 s h hg, hdcs]
    by_cases hm : hashMatches (signatureHex s (dataCheckString (parseParams t2))) h = true
    · rw [if_pos hm, if_pos hm, resolveUser_congr _ _ hu]
    · rw [if_neg hm, if_neg hm]

/-- Witness for c2_signature_order_invariant at the two concrete
differently-ordered tokens: their check strings coincide. -/
theorem c2_signature_order_invariant_witness :
    dataCheckString (parseParams tokC2a) = dataCheckString (parseParams tokC2b) :=
  (c2_signature_order_invariant tokC2a tokC2b "SECRET" (by decide)).1

/-- C3: the verifier is total with a tri-state result; a token without a
hash pair is invalid; and a token whose user value is non-empty and fails
JSON.parse is invalid (never an unhandled fault: the catch-all converts the
throw; an empty user value is JS-falsy and yields the no-identity
result). -/
theorem c3_verifier_total (i b : String) :
    (validateTelegramInitData i b = .invalid ∨
      validateTelegramInitData i b = .validNoId ∨
      ∃ q, validateTelegramInitData i b = .validWithId q) ∧
      (getParam (parseParams i) "hash" = none → validateTelegramInitData i b = .invalid) ∧
      (∀ u, getParam (parseParams i) "user" = some u → u ≠ "" → jsonParse u = none →
        validateTelegramInitData i b = .invalid) := by
  refine ⟨?_, ?_, ?_⟩
  · cases hv : validateTelegramInitData i b with
    | invalid => exact Or.inl rfl
    | validNoId => exact Or.inr (Or.inl rfl)
    | validWithId q => exact Or.inr (Or.inr ⟨q, rfl⟩)
  · intro hg
    exact validate_none i b hg
  · intro u hu hne hj
    cases hg : getParam (parseParams i) "hash" with
    | none => exact validate_none i b hg
    | some h =>
      rw [validate_some i b h hg]
      by_cases hm : hashMatches (signatureHex b (dataCheckString (parseParams i))) h = true
      · rw [if_pos hm, resolveUser_some _ u hu hne, hj]
      · rw [if_neg hm]

/-- Witness for c3_verifier_total: a token without a hash pair and a signed
token with a non-empty, non-JSON user value, both rejected as invalid. -/
theorem c3_verifier_total_witness :
    validateTelegramInitData "a=1" "k" = .invalid ∧
      validateTelegramInitData tokC4bad "SECRET" = .invalid :=
  ⟨(c3_verifier_total "a=1" "k").2.1 (by decide),
   (c3_verifier_total tokC4bad "SECRET").2.2 "x" (by decide) (by decide) (by rfl)⟩

/-- C4 counterexample: a token whose signature matches and whose user value
x is present but is not JSON is rejected as invalid by the code (the
JSON.parse throw reaches the catch-all), not accepted with a null
identity as the claim states. -/
theorem c4_json_failure_counterexample :
    getParam (parseParams tokC4bad) "hash" = some hashC4bad ∧
      signatureHex "SECRET" (dataCheckString (parseParams tokC4bad)) = hashC4bad ∧
      getParam (parseParams tokC4bad) "user" = some "x" ∧
      (jsonParse "x").isNone = true ∧
      validateTelegramInitData tokC4bad "SECRET" = .invalid :=
  ⟨by decide, by decide, by decide, by rfl, by decide⟩

/-- C4 (amended): for a token whose signature matches, a non-empty user
value that fails JSON.parse makes verification fail with invalid; a user
value that parses to JSON without a numeric id field succeeds with the
no-identity result; and an empty user value is JS-falsy and also succeeds
with the no-identity result. -/
theorem c4_user_resolution (t s u h : String)
    (hh : getParam (parseParams t) "hash" = some h)
    (hm : hashMatches (signatureHex s (dataCheckString (parseParams t))) h = true)
    (hu : getParam (parseParams t) "user" = some u) :
    (u ≠ "" → jsonParse u = none → validateTelegramInitData t s = .invalid) ∧
      (∀ j, jsonParse u = some j → jsIdNum j = none →
        validateTelegramInitData t s = .validNoId) ∧
      (u = "" → validateTelegramInitData t s = .validNoId) := by
  rw [validate_some t s h hh, if_pos hm]
  refine ⟨?_, ?_, ?_⟩
  · intro hne hj
    rw [resolveUser_some _ u hu hne, hj]
  · intro j hj hid
    have hne : u ≠ "" := by
      intro h0
      rw [h0] at hj
      have he : jsonParse "" = none := rfl
      rw [he] at hj
      exact Option.noConfusion hj
    rw [resolveUser_some _ u hu hne, hj]
    show (match jsIdNum j with
      | some q => VResult.validWithId q
      | none => VResult.validNoId) = VResult.validNoId
    rw [hid]
  · intro h0
    rw [h0] at hu
    exact resolveUser_empty _ hu

/-- Witness for c4_user_resolution: the signed token whose user JSON has a
string-valued id verifies with the no-identity result. -/
theorem c4_user_resolution_witness :
    validateTelegramInitData tokC4ni "SECRET" = .validNoId := by
  have h := c4_user_resolution tokC4ni "SECRET" "\x7b\"id\":\"x\"\x7d" hashC4ni
    (by decide) (by decide) (by decide)
  exact h.2.1 (JsVal.jobj [("id", JsVal.jstr "x")]) (by rfl) (by rfl)

/-! ### Reduction helpers for POST and PUT -/

/-- POST with valid input and no initData is the anonymous path. -/
theorem POST_anon_none (ctx : Ctx) (req : PostReq) (store : List Row) (f : TgFile)
    (hok : postInputOk req = true) (hd : req.document = some (.fileEntry f))
    (hi : req.initData = none) :
    POST ctx req store = postUpload ctx req f store none [] := by
  unfold POST
  rw [hok, hd, hi]
  rfl

/-- POST with valid input and no configured bot token is the anonymous
path. -/
theorem POST_bot_none (ctx : Ctx) (req : PostReq) (store : List Row) (f : TgFile) (i : String)
    (hok : postInputOk req = true) (hd : req.document = some (.fileEntry f))
    (hi : req.initData = some i) (hb : ctx.botToken = none) :
    POST ctx req store = postUpload ctx req f store none [] := by
  unfold POST
  rw [hok, hd, hi, hb]
  rfl

/-- POST with valid input and an empty initData or bot token is the
anonymous path. -/
theorem POST_falsy_tok (ctx : Ctx) (req : PostReq) (store : List Row) (f : TgFile) (i b : String)
    (hok : postInputOk req = true) (hd : req.document = some (.fileEntry f))
    (hi : req.initData = some i) (hb : ctx.botToken = some b)
    (hie : ¬(i ≠ "" ∧ b ≠ "")) :
    POST ctx req store = postUpload ctx req f store none [] := by
  unfold POST
  rw [hok, hd, hi, hb]
  show postTok ctx req f store i b = postUpload ctx req f store none []
  unfold postTok
  rw [if_neg hie]

/-- POST through a resolved non-zero identity with a working select. -/
theorem POST_auth_id (ctx : Ctx) (req : PostReq) (store : List Row) (f : TgFile)
    (i b : String) (q : Rat)
    (hok : postInputOk req = true) (hd : req.document = some (.fileEntry f))
    (hi : req.initData = some i) (hb : ctx.botToken = some b)
    (hie : i ≠ "" ∧ b ≠ "")
    (hv : validateTelegramInitData i b = .validWithId q) (hq : ¬ q = 0)
    (hse : ctx.selectError = false) :
    POST ctx req store =
      if store.any (rowMatches q) then ⟨.duplicate, store, [.effVerify i b, .effSelect q]⟩
      else postUpload ctx req f store (some q) [.effVerify i b, .effSelect q] := by
  unfold POST
  rw [hok, hd, hi, hb]
  show postTok ctx req f store i b = _
  unfold postTok
  rw [if_pos hie, hv]
  show (if q = 0 then (⟨.noUser, store, [.effVerify i b]⟩ : PostOut)
        else postIdentified ctx req f store i b q) = _
  rw [if_neg hq]
  unfold postIdentified
  rw [hse]
  rfl

/-- The upload-and-insert tail when both external calls succeed. -/
theorem postUpload_ok (ctx : Ctx) (req : PostReq) (f : TgFile) (store : List Row)
    (tgid : Option Rat) (effs : List Eff) (p : String)
    (hup : ctx.uploadResult = some p) (hpne : ¬ p = "") (hins : ctx.insertError = none) :
    postUpload ctx req f store tgid effs =
      ⟨.created, store ++ [newRow req p tgid],
       effs ++ [Eff.effUpload (mkFilePath ctx f.name)] ++ [Eff.effInsert (newRow req p tgid)]⟩ := by
  simp only [postUpload, hup, hins, if_neg hpne]

/-- The upload-and-insert tail when the insert reports an error. -/
theorem postUpload_insert_err (ctx : Ctx) (req : PostReq) (f : TgFile) (store : List Row)
    (tgid : Option Rat) (effs : List Eff) (p : String) (e : InsErr)
    (hup : ctx.uploadResult = some p) (hpne : ¬ p = "") (hins : ctx.insertError = some e) :
    postUpload ctx req f store tgid effs =
      ⟨.saveFailed, store,
       effs ++ [Eff.effUpload (mkFilePath ctx f.name)] ++ [Eff.effInsert (newRow req p tgid)]⟩ := by
  simp only [postUpload, hup, hins, if_neg hpne]

/-- The update tail of PUT with a working update call. -/
theorem putFinish_ok (ctx : Ctx) (req : PutReq) (q : Rat) (dp : Option String)
    (store : List Row) (effs : List Eff) (hue : ctx.updateError = false) :
    putFinish ctx req q dp store effs =
      (.pOk dp, store.map (fun r => if rowMatches q r then updRow req dp r else r),
       effs ++ [Eff.effUpdate q]) := by
  simp only [putFinish, hue]
  rfl

/-- PUT through a resolved identity with an existing row reduces to the
document resolution. -/
theorem PUT_resolved (ctx : Ctx) (req : PutReq) (store : List Row) (i b : String)
    (q : Rat) (r0 : Row)
    (hi : req.initData = some i) (hb : ctx.botToken = some b) (hie : i ≠ "" ∧ b ≠ "")
    (hv : validateTelegramInitData i b = .validWithId q) (hq : ¬ q = 0)
    (hfl : putFieldsOk req = true) (hse : ctx.selectError = false)
    (hfind : (store.filter (rowMatches q)).head? = some r0) :
    PUT ctx req store = putDoc ctx req store i b q r0 := by
  unfold PUT
  rw [hi, hb]
  show putTok ctx req store i b = _
  unfold putTok
  rw [if_pos hie, hv]
  show (if q = 0 then ((.pNotVerified, store, [Eff.effVerify i b]) : PutRes × List Row × List Eff)
        else putFields ctx req store i b q) = _
  rw [if_neg hq]
  unfold putFields
  rw [hfl, hse, hfind]
  rfl

/-! ### Claims about the workflow: POST -/

/-- The upload-and-insert tail when the blob upload fails. -/
theorem postUpload_upload_fail (ctx : Ctx) (req : PostReq) (f : TgFile) (store : List Row)
    (tgid : Option Rat) (effs : List Eff) (hup : ctx.uploadResult = none) :
    postUpload ctx req f store tgid effs =
      ⟨.uploadFailed, store, effs ++ [Eff.effUpload (mkFilePath ctx f.name)]⟩ := by
  simp only [postUpload, hup]

/-- The upload-and-insert tail when the blob upload returns an empty
path. -/
theorem postUpload_upload_empty (ctx : Ctx) (req : PostReq) (f : TgFile) (store : List Row)
    (tgid : Option Rat) (effs : List Eff) (p : String)
    (hup : ctx.uploadResult = some p) (hp : p = "") :
    postUpload ctx req f store tgid effs =
      ⟨.uploadFailed, store, effs ++ [Eff.effUpload (mkFilePath ctx f.name)]⟩ := by
  simp only [postUpload, hup, if_pos hp]

/-- The upload-and-insert tail never verifies or selects, and any row it
adds carries the supplied identity key. -/
theorem postUpload_nil_effs (ctx : Ctx) (req : PostReq) (f : TgFile) (store : List Row)
    (tgid : Option Rat) :
    (∀ i b, Eff.effVerify i b ∉ (postUpload ctx req f store tgid []).effs) ∧
      (∀ u, Eff.effSelect u ∉ (postUpload ctx req f store tgid []).effs) ∧
      (∀ r ∈ (postUpload ctx req f store tgid []).store, r ∈ store ∨ r.telegramChatId = tgid) := by
  cases hup : ctx.uploadResult with
  | none =>
    rw [postUpload_upload_fail ctx req f store tgid [] hup]
    exact ⟨by simp, by simp, fun r hr => Or.inl hr⟩
  | some p =>
    by_cases hp : p = ""
    · rw [postUpload_upload_empty ctx req f store tgid [] p hup hp]
      exact ⟨by simp, by simp, fun r hr => Or.inl hr⟩
    · cases hins : ctx.insertError with
      | some e0 =>
        rw [postUpload_insert_err ctx req f store tgid [] p e0 hup hp hins]
        exact ⟨by simp, by simp, fun r hr => Or.inl hr⟩
      | none =>
        rw [postUpload_ok ctx req f store tgid [] p hup hp hins]
        refine ⟨by simp, by simp, ?_⟩
        intro r hr
        simp only [List.mem_append, List.mem_singleton] at hr
        rcases hr with hr | hr
        · exact Or.inl hr
        · right
          rw [hr]
          rfl

/-- C5: Create is rejected the second time for the same resolved non-null
identity: with no row for the identity in the store and working external
calls, the first call succeeds and appends exactly the new row, and a
second call (any request resolving to the same identity) fails with the
duplicate conflict and leaves the store unchanged. -/
theorem c5_duplicate_create_rejected
    (ctx1 ctx2 : Ctx) (r1 r2 : PostReq) (store : List Row)
    (i1 i2 b1 b2 : String) (f1 f2 : TgFile) (p1 : String) (q : Rat)
    (hok1 : postInputOk r1 = true) (hd1 : r1.document = some (.fileEntry f1))
    (hi1 : r1.initData = some i1) (hb1 : ctx1.botToken = some b1)
    (hie1 : i1 ≠ "" ∧ b1 ≠ "")
    (hv1 : validateTelegramInitData i1 b1 = .validWithId q) (hq : ¬ q = 0)
    (hse1 : ctx1.selectError = false)
    (hup1 : ctx1.uploadResult = some p1) (hp1 : ¬ p1 = "")
    (hins1 : ctx1.insertError = none)
    (hpre : store.any (rowMatches q) = false)
    (hok2 : postInputOk r2 = true) (hd2 : r2.document = some (.fileEntry f2))
    (hi2 : r2.initData = some i2) (hb2 : ctx2.botToken = some b2)
    (hie2 : i2 ≠ "" ∧ b2 ≠ "")
    (hv2 : validateTelegramInitData i2 b2 = .validWithId q)
    (hse2 : ctx2.selectError = false) :
    (POST ctx1 r1 store).res = .created ∧
      (POST ctx1 r1 store).store = store ++ [newRow r1 p1 (some q)] ∧
      (POST ctx2 r2 ((POST ctx1 r1 store).store)).res = .duplicate ∧
      (POST ctx2 r2 ((POST ctx1 r1 store).store)).store = (POST ctx1 r1 store).store := by
  have e1 : POST ctx1 r1 store =
      ⟨.created, store ++ [newRow r1 p1 (some q)],
       [.effVerify i1 b1, .effSelect q] ++ [Eff.effUpload (mkFilePath ctx1 f1.name)] ++
         [Eff.effInsert (newRow r1 p1 (some q))]⟩ := by
    rw [POST_auth_id ctx1 r1 store f1 i1 b1 q hok1 hd1 hi1 hb1 hie1 hv1 hq hse1, hpre]
    show postUpload ctx1 r1 f1 store (some q) [.effVerify i1 b1, .effSelect q] = _
    exact postUpload_ok ctx1 r1 f1 store (some q) _ p1 hup1 hp1 hins1
  have hany2 : (store ++ [newRow r1 p1 (some q)]).any (rowMatches q) = true := by
    have hm : rowMatches q (newRow r1 p1 (some q)) = true := by
      simp [rowMatches, newRow]
    simp [List.any_append, hm]
  have e2 : POST ctx2 r2 (store ++ [newRow r1 p1 (some q)]) =
      ⟨.duplicate, store ++ [newRow r1 p1 (some q)], [.effVerify i2 b2, .effSelect q]⟩ := by
    rw [POST_auth_id ctx2 r2 _ f2 i2 b2 q hok2 hd2 hi2 hb2 hie2 hv2 hq hse2, hany2]
    rfl
  refine ⟨?_, ?_, ?_, ?_⟩
  · rw [e1]
  · rw [e1]
  · rw [e1]
    show (POST ctx2 r2 (store ++ [newRow r1 p1 (some q)])).res = .duplicate
    rw [e2]
  · rw [e1]
    show (POST ctx2 r2 (store ++ [newRow r1 p1 (some q)])).store = store ++ [newRow r1 p1 (some q)]
    rw [e2]

/-- A well-formed multipart file for the witnesses. -/
def fileW : TgFile := ⟨"report.zip", 4, "application/zip"⟩

/-- A create request carrying the signed identity token. -/
def reqW1 : PostReq :=
  ⟨some "Ali", some "Valiyev", some "TUIT", some "bachelors", some (.fileEntry fileW), some tokU1⟩

/-- A context with the secret configured and all external calls working. -/
def ctxW1 : Ctx :=
  ⟨some "SECRET", 1700000000000, "abc123", false,
   some "documents/1700000000000-abc123-report.zip", none, false⟩

/-- Witness for c5_duplicate_create_rejected: the same concrete request
twice against an empty store. -/
theorem c5_duplicate_create_rejected_witness :
    (POST ctxW1 reqW1 []).res = .created ∧
      (POST ctxW1 reqW1 ((POST ctxW1 reqW1 []).store)).res = .duplicate := by
  have h := c5_duplicate_create_rejected ctxW1 ctxW1 reqW1 reqW1 []
    tokU1 tokU1 "SECRET" "SECRET" fileW fileW "documents/1700000000000-abc123-report.zip" 1
    (by decide) rfl rfl rfl ⟨by decide, by decide⟩ (by decide) (by decide) rfl rfl
    (by decide) rfl rfl (by decide) rfl rfl rfl ⟨by decide, by decide⟩ (by decide) rfl
  exact ⟨h.1, h.2.2.1⟩

/-- The generated path of the witness context. -/
def pathW : String := "documents/1700000000000-abc123-report.zip"

/-- A context with the secret configured whose insert call reports a
uniqueness-constraint violation. -/
def ctxDupErr : Ctx :=
  ⟨some "SECRET", 1700000000000, "abc123", false, some pathW, some .uniqueViolation, false⟩

/-- C6 counterexample: on the identity-verified path — the signed token
resolves id 1, the pre-insert lookup finds nothing, and the insert of the
row keyed by that identity reports a uniqueness-constraint violation —
Create fails with the persistence failure (HTTP 500), not with the
duplicate conflict (HTTP 409) as the claim states. -/
theorem c6_unique_violation_counterexample :
    (POST ctxDupErr reqW1 []).res = .saveFailed ∧
      postStatus (POST ctxDupErr reqW1 []).res = 500 ∧
      (POST ctxDupErr reqW1 []).res ≠ .duplicate ∧
      postStatus (POST ctxDupErr reqW1 []).res ≠ 409 ∧
      Eff.effInsert (newRow reqW1 pathW (some 1)) ∈ (POST ctxDupErr reqW1 []).effs ∧
      (newRow reqW1 pathW (some 1)).telegramChatId = some 1 :=
  ⟨by decide, by decide, by decide, by decide, by decide, rfl⟩

/-- C6 (amended): on the identity-verified path, when the pre-insert lookup
passes and the insert of the identity-keyed row reports any error — the
uniqueness-constraint violation included — Create fails with the
persistence failure (HTTP 500) and inserts nothing; the code never maps
the error to the duplicate conflict. -/
theorem c6_insert_error_is_persistence_failure
    (ctx : Ctx) (req : PostReq) (store : List Row) (f : TgFile) (i b p : String)
    (q : Rat) (e : InsErr)
    (hok : postInputOk req = true) (hd : req.document = some (.fileEntry f))
    (hi : req.initData = some i) (hb : ctx.botToken = some b)
    (hie : i ≠ "" ∧ b ≠ "")
    (hv : validateTelegramInitData i b = .validWithId q) (hq : ¬ q = 0)
    (hse : ctx.selectError = false)
    (hpre : store.any (rowMatches q) = false)
    (hup : ctx.uploadResult = some p) (hpne : ¬ p = "") (hins : ctx.insertError = some e) :
    (POST ctx req store).res = .saveFailed ∧
      (POST ctx req store).store = store ∧
      postStatus (POST ctx req store).res = 500 ∧
      Eff.effInsert (newRow req p (some q)) ∈ (POST ctx req store).effs := by
  have e1 : POST ctx req store =
      ⟨.saveFailed, store,
       [.effVerify i b, .effSelect q] ++ [Eff.effUpload (mkFilePath ctx f.name)] ++
         [Eff.effInsert (newRow req p (some q))]⟩ := by
    rw [POST_auth_id ctx req store f i b q hok hd hi hb hie hv hq hse, hpre]
    show postUpload ctx req f store (some q) [.effVerify i b, .effSelect q] = _
    exact postUpload_insert_err ctx req f store (some q) _ p e hup hpne hins
  refine ⟨by rw [e1], by rw [e1], by rw [e1]; rfl, ?_⟩
  rw [e1]
  simp

/-- Witness for c6_insert_error_is_persistence_failure at the concrete
uniqueness-violation context, with the signed identity token. -/
theorem c6_insert_error_witness :
    (POST ctxDupErr reqW1 []).res = .saveFailed ∧
      postStatus (POST ctxDupErr reqW1 []).res = 500 ∧
      Eff.effInsert (newRow reqW1 pathW (some 1)) ∈ (POST ctxDupErr reqW1 []).effs := by
  have h := c6_insert_error_is_persistence_failure ctxDupErr reqW1 [] fileW
    tokU1 "SECRET" pathW 1 .uniqueViolation
    (by decide) rfl rfl rfl ⟨by decide, by decide⟩ (by decide) (by decide) rfl rfl rfl
    (by decide) rfl
  exact ⟨h.1, h.2.2.1, h.2.2.2⟩

/-- A zero-byte file. -/
def fileEmpty : TgFile := ⟨"empty.zip", 0, ""⟩

/-- A create request whose document is a zero-byte file. -/
def reqEmptyDoc : PostReq :=
  ⟨some "Ali", some "Valiyev", some "TUIT", some "bachelors", some (.fileEntry fileEmpty), none⟩

/-- A context with no secret configured and working external calls. -/
def ctxAnonOk : Ctx :=
  ⟨none, 1700000000000, "abc123", false,
   some "documents/1700000000000-abc123-empty.zip", none, false⟩

/-- C7 counterexample: a request whose document is a zero-byte file passes
validation — the code only checks document instanceof File — so Create
succeeds and invokes the blob store rather than failing with
MissingFields. -/
theorem c7_empty_document_counterexample :
    reqEmptyDoc.document = some (.fileEntry ⟨"empty.zip", 0, ""⟩) ∧
      (POST ctxAnonOk reqEmptyDoc []).res = .created ∧
      (POST ctxAnonOk reqEmptyDoc []).res ≠ .missingFields ∧
      Eff.effUpload "documents/1700000000000-abc123-empty.zip" ∈
        (POST ctxAnonOk reqEmptyDoc []).effs :=
  ⟨rfl, by decide, by decide, by decide⟩

/-- C7 (amended): Create validates that the four fields are present and
non-empty and that the document entry is a file upload, failing with
MissingFields before any external call otherwise; it does not check that
the file has any bytes. -/
theorem c7_missing_fields_guard (ctx : Ctx) (req : PostReq) (store : List Row)
    (h : postInputOk req = false) :
    (POST ctx req store).res = .missingFields ∧
      (POST ctx req store).store = store ∧
      (POST ctx req store).effs = [] := by
  have e := POST_missing ctx req store h
  exact ⟨by rw [e], by rw [e], by rw [e]⟩

/-- A create request with no document entry at all. -/
def reqNoDoc : PostReq :=
  ⟨some "Ali", some "Valiyev", some "TUIT", some "bachelors", none, none⟩

/-- Witness for c7_missing_fields_guard at a concrete request without a
document. -/
theorem c7_missing_fields_guard_witness :
    (POST ctxAnonOk reqNoDoc []).res = .missingFields ∧
      (POST ctxAnonOk reqNoDoc []).effs = [] := by
  have h := c7_missing_fields_guard ctxAnonOk reqNoDoc [] (by decide)
  exact ⟨h.1, h.2.2⟩

/-- C10: with no secret configured, Create ignores the supplied token
entirely: the outcome equals the outcome with no token at all (hence any
two token values yield the same outcome), no verification and no duplicate
lookup happen, and any inserted row has a null identity key. -/
theorem c10_create_ignores_token_without_secret (ctx : Ctx) (req : PostReq) (store : List Row)
    (h : strTruthy ctx.botToken = false) :
    POST ctx req store = POST ctx { req with initData := none } store ∧
      (∀ i b, Eff.effVerify i b ∉ (POST ctx req store).effs) ∧
      (∀ u, Eff.effSelect u ∉ (POST ctx req store).effs) ∧
      (∀ r ∈ (POST ctx req store).store, r ∈ store ∨ r.telegramChatId = none) := by
  cases hok : postInputOk req with
  | false =>
    have e1 := POST_missing ctx req store hok
    have e2 := POST_missing ctx { req with initData := none } store hok
    refine ⟨by rw [e1, e2], ?_, ?_, ?_⟩
    · intro i b
      rw [e1]
      simp
    · intro u
      rw [e1]
      simp
    · intro r hr
      simp only [e1] at hr
      exact Or.inl hr
  | true =>
    have hIsFile : isFile req.document = true := by
      simp only [postInputOk, Bool.and_eq_true] at hok
      exact hok.2
    have hex : ∃ f, req.document = some (.fileEntry f) := by
      cases hdd : req.document with
      | none =>
        rw [hdd] at hIsFile
        exact absurd hIsFile (by simp [isFile])
      | some entry =>
        cases entry with
        | strEntry str =>
          rw [hdd] at hIsFile
          exact absurd hIsFile (by simp [isFile])
        | fileEntry f => exact ⟨f, rfl⟩
    obtain ⟨f, hdoc⟩ := hex
    have e1 : POST ctx req store = postUpload ctx req f store none [] := by
      cases hbt : ctx.botToken with
      | none =>
        cases hi : req.initData with
        | none => exact POST_anon_none ctx req store f hok hdoc hi
        | some i => exact POST_bot_none ctx req store f i hok hdoc hi hbt
      | some b =>
        have hb0 : b = "" := by
          rw [hbt] at h
          exact not_not.mp (of_decide_eq_false h)
        cases hi : req.initData with
        | none => exact POST_anon_none ctx req store f hok hdoc hi
        | some i =>
          refine POST_falsy_tok ctx req store f i b hok hdoc hi hbt ?_
          rw [hb0]
          simp
    have e2 : POST ctx { req with initData := none } store =
        postUpload ctx { req with initData := none } f store none [] :=
      POST_anon_none ctx _ store f hok hdoc rfl
    have props := postUpload_nil_effs ctx req f store none
    refine ⟨?_, ?_, ?_, ?_⟩
    · rw [e1, e2]
      rfl
    · intro i b
      rw [e1]
      exact props.1 i b
    · intro u
      rw [e1]
      exact props.2.1 u
    · intro r hr
      rw [e1] at hr
      exact props.2.2 r hr

/-- A create request carrying a forged, unparseable token. -/
def reqForged : PostReq :=
  ⟨some "Ali", some "Valiyev", some "TUIT", some "bachelors", some (.fileEntry fileW),
   some "user=1&hash=forged"⟩

/-- Witness for c10_create_ignores_token_without_secret: with no secret,
the forged-token request behaves exactly like the anonymous one. -/
theorem c10_create_ignores_token_witness :
    POST ctxAnonOk reqForged [] = POST ctxAnonOk { reqForged with initData := none } [] ∧
      (∀ u, Eff.effSelect u ∉ (POST ctxAnonOk reqForged []).effs) := by
  have h := c10_create_ignores_token_without_secret ctxAnonOk reqForged [] (by decide)
  exact ⟨h.1, h.2.2.1⟩

/-! ### Claims about the workflow: PUT and GET -/

/-- C8: Update for an identity with an existing row: without a new
document, the response and every updated row carry the previously stored
document path unchanged; with a new document whose upload succeeds, the
response and every updated row carry exactly the freshly uploaded path;
in both cases the mutable fields of the matching rows are set from the
request and all other rows are untouched. -/
theorem c8_update_document_path
    (ctx : Ctx) (req : PutReq) (store : List Row) (i b : String) (q : Rat) (r0 : Row)
    (hi : req.initData = some i) (hb : ctx.botToken = some b) (hie : i ≠ "" ∧ b ≠ "")
    (hv : validateTelegramInitData i b = .validWithId q) (hq : ¬ q = 0)
    (hfl : putFieldsOk req = true) (hse : ctx.selectError = false)
    (hue : ctx.updateError = false)
    (hfind : (store.filter (rowMatches q)).head? = some r0) :
    (req.document = none →
      (PUT ctx req store).1 = .pOk r0.docPath ∧
        (PUT ctx req store).2.1 =
          store.map (fun r => if rowMatches q r then updRow req r0.docPath r else r)) ∧
      (∀ f p, req.document = some (.fileEntry f) → ctx.uploadResult = some p → ¬ p = "" →
        (PUT ctx req store).1 = .pOk (some p) ∧
          (PUT ctx req store).2.1 =
            store.map (fun r => if rowMatches q r then updRow req (some p) r else r)) := by
  have e0 := PUT_resolved ctx req store i b q r0 hi hb hie hv hq hfl hse hfind
  constructor
  · intro hdoc
    have e1 : PUT ctx req store =
        (.pOk r0.docPath,
         store.map (fun r => if rowMatches q r then updRow req r0.docPath r else r),
         [Eff.effVerify i b, Eff.effSelect q] ++ [Eff.effUpdate q]) := by
      rw [e0]
      unfold putDoc
      rw [hdoc]
      exact putFinish_ok ctx req q r0.docPath store _ hue
    exact ⟨by rw [e1], by rw [e1]⟩
  · intro f p hdoc hup hpne
    have e1 : PUT ctx req store =
        (.pOk (some p),
         store.map (fun r => if rowMatches q r then updRow req (some p) r else r),
         [Eff.effVerify i b, Eff.effSelect q, Eff.effUpload (mkFilePath ctx f.name)] ++
           [Eff.effUpdate q]) := by
      rw [e0]
      unfold putDoc
      rw [hdoc]
      show putNewDoc ctx req store i b q f = _
      unfold putNewDoc
      rw [hup]
      show (if p = "" then
              ((.pUploadFailed, store,
                [Eff.effVerify i b, Eff.effSelect q, Eff.effUpload (mkFilePath ctx f.name)]) :
                PutRes × List Row × List Eff)
            else putFinish ctx req q (some p) store
              [Eff.effVerify i b, Eff.effSelect q, Eff.effUpload (mkFilePath ctx f.name)]) = _
      rw [if_neg hpne]
      exact putFinish_ok ctx req q (some p) store _ hue
    exact ⟨by rw [e1], by rw [e1]⟩

/-- A previously stored submission row for identity 1. -/
def rowOld : Row := ⟨"Old", "Name", "U", "masters", some "documents/old.zip", some 1⟩

/-- An update request without a new document. -/
def putReqNoDoc : PutReq := ⟨some tokU1, some "New", some "Name", some "U2", some "phd", none⟩

/-- An update request with a new document. -/
def putReqNewDoc : PutReq :=
  ⟨some tokU1, some "New", some "Name", some "U2", some "phd", some (.fileEntry fileW)⟩

/-- A context for the update witnesses. -/
def ctxPut : Ctx :=
  ⟨some "SECRET", 1700000000001, "zzz999", false,
   some "documents/1700000000001-zzz999-report.zip", none, false⟩

/-- Witness for c8_update_document_path: the stored path is kept without a
new document and replaced with the fresh one when a document is sent. -/
theorem c8_update_document_path_witness :
    (PUT ctxPut putReqNoDoc [rowOld]).1 = .pOk (some "documents/old.zip") ∧
      (PUT ctxPut putReqNewDoc [rowOld]).1 =
        .pOk (some "documents/1700000000001-zzz999-report.zip") := by
  have h1 := c8_update_document_path ctxPut putReqNoDoc [rowOld] tokU1 "SECRET" 1 rowOld
    rfl rfl ⟨by decide, by decide⟩ (by decide) (by decide) (by decide) rfl rfl (by decide)
  have h2 := c8_update_document_path ctxPut putReqNewDoc [rowOld] tokU1 "SECRET" 1 rowOld
    rfl rfl ⟨by decide, by decide⟩ (by decide) (by decide) (by decide) rfl rfl (by decide)
  exact ⟨(h1.1 rfl).1, (h2.2 fileW "documents/1700000000001-zzz999-report.zip" rfl rfl
    (by decide)).1⟩

/-- C9 (amended): Lookup returns the no-result payload without touching the
repository when the token or the secret is missing or empty; it returns
the no-result payload when the token is invalid or carries no usable
identity; and whenever the repository select does not fail it answers with
status 200 and a boolean result — but a repository select failure surfaces
status 500 (see the counterexample). -/
theorem c9_lookup_always_boolean (ctx : Ctx) (req : GetReq) (store : List Row) :
    (strTruthy (jsOrStr req.queryInitData req.headerInit) = false ∨
        strTruthy ctx.botToken = false →
      GET ctx req store = (.gNoExists, [])) ∧
      (∀ i b, jsOrStr req.queryInitData req.headerInit = some i → ctx.botToken = some b →
        (validateTelegramInitData i b = .invalid ∨ validateTelegramInitData i b = .validNoId ∨
          validateTelegramInitData i b = .validWithId 0) →
        (GET ctx req store).1 = .gNoExists) ∧
      (ctx.selectError = false → getStatus (GET ctx req store).1 = 200) := by
  refine ⟨?_, ?_, ?_⟩
  · intro hfalsy
    unfold GET
    cases hj : jsOrStr req.queryInitData req.headerInit with
    | none => rfl
    | some i =>
      cases hbt : ctx.botToken with
      | none => rfl
      | some b =>
        show getTok ctx store i b = (.gNoExists, [])
        rw [hj, hbt] at hfalsy
        have hie : ¬(i ≠ "" ∧ b ≠ "") := by
          rcases hfalsy with hf | hf
          · have h0 : i = "" := not_not.mp (of_decide_eq_false hf)
            simp [h0]
          · have h0 : b = "" := not_not.mp (of_decide_eq_false hf)
            simp [h0]
        unfold getTok
        rw [if_neg hie]
  · intro i b hj hbt hv3
    unfold GET
    rw [hj, hbt]
    show (getTok ctx store i b).1 = .gNoExists
    unfold getTok
    by_cases hie : i ≠ "" ∧ b ≠ ""
    · rw [if_pos hie]
      rcases hv3 with hv | hv | hv <;> rw [hv]
      all_goals rfl
    · rw [if_neg hie]
  · intro hse
    unfold GET
    cases hj : jsOrStr req.queryInitData req.headerInit with
    | none => rfl
    | some i =>
      cases hbt : ctx.botToken with
      | none => rfl
      | some b =>
        show getStatus (getTok ctx store i b).1 = 200
        unfold getTok
        by_cases hie : i ≠ "" ∧ b ≠ ""
        · rw [if_pos hie]
          cases hv : validateTelegramInitData i b with
          | invalid => rfl
          | validNoId => rfl
          | validWithId q =>
            show getStatus
                ((if q = 0 then ((.gNoExists, [Eff.effVerify i b]) : GetRes × List Eff)
                  else getSel ctx store i b q).1) = 200
            by_cases hq : q = 0
            · rw [if_pos hq]
              rfl
            · rw [if_neg hq]
              unfold getSel
              rw [hse]
              show getStatus
                  ((match (store.filter (rowMatches q)).head? with
                    | some r =>
                      ((.gResult true (some (projRow r)),
                        [Eff.effVerify i b, Eff.effSelect q]) : GetRes × List Eff)
                    | none => (.gResult false none, [Eff.effVerify i b, Eff.effSelect q])).1) =
                200
              cases hh : (store.filter (rowMatches q)).head? with
              | some r => rfl
              | none => rfl
        · rw [if_neg hie]
          rfl

/-- A lookup request carrying the signed identity token. -/
def reqGetTok : GetReq := ⟨some tokU1, none⟩

/-- A context whose repository select fails. -/
def ctxSelErr : Ctx := ⟨some "SECRET", 0, "r", true, none, none, false⟩

/-- C9 counterexample: with a valid identity token and a failing repository
select, Lookup surfaces an error status 500 instead of a boolean result,
contradicting the claim that it always succeeds with a boolean result. -/
theorem c9_select_error_counterexample :
    (GET ctxSelErr reqGetTok []).1 = .gCheckError ∧
      getStatus (GET ctxSelErr reqGetTok []).1 = 500 :=
  ⟨by decide, by decide⟩

/-- Witness for c9_lookup_always_boolean: no secret configured yields the
early no-result payload, and with no select failure the status is 200. -/
theorem c9_lookup_always_boolean_witness :
    GET ctxAnonOk reqGetTok [] = (.gNoExists, []) ∧
      getStatus (GET ctxAnonOk reqGetTok []).1 = 200 := by
  have h := c9_lookup_always_boolean ctxAnonOk reqGetTok []
  exact ⟨h.1 (Or.inr (by decide)), h.2.2 (by decide)⟩

end Shartnoma
